import Mathlib

/-! Cache orchestrator of zsim (`src/cache.cpp`).

A shallow embedding of `Cache::access`, `Cache::finishInvalidate`, and of the tracing
sink (`findSubstring`, `enumAccessType`, `Cache::WriteData`).

* The coherence controller (`cc`) and the cache array (`array`) are external
  collaborators: they are parameters of the model, arbitrary functions over an
  abstract collaborator state `σ`.
* Every call that the orchestrator makes is appended to a call log, so that
  ordering and "exactly once" properties can be stated.
* `uint64_t` values are natural numbers; additions and subtractions are taken
  modulo `2 ^ 64`.  `int32_t` slot ids are integers, `-1` meaning "not present".
* `assert` / `assert_msg` failures are fatal: the model returns `Except.error`.
-/

namespace ZSim

/-! ## Data model -/

/-- Access kinds of a memory request. -/
inductive AccessType where
  | GETS
  | GETX
  | PUTS
  | PUTX
  deriving DecidableEq, Repr

/-- Invalidation kinds. -/
inductive InvType where
  | INV
  | INVX
  deriving DecidableEq, Repr

/-- Memory request (`MemReq`), with the fields the orchestrator reads. -/
structure MemReq where
  lineAddr : Nat
  type : AccessType
  childId : Nat
  cycle : Nat
  srcId : Nat
  flags : Nat
  deriving DecidableEq, Repr

/-- Invalidate request (`InvReq`). -/
structure InvReq where
  lineAddr : Nat
  type : InvType
  cycle : Nat
  srcId : Nat
  deriving DecidableEq, Repr

/-- Event handle: a pointer to a timing event, `none` being `nullptr`. -/
abbrev EventPtr := Option Nat

/-- Modelled from the spec: `TimingRecord` is declared in `event_recorder.h`, which is
not part of the sources at hand.  A reference cycle, a start node and a nullable end
node (spec §3), plus the address, response cycle and kind carried along unchanged. -/
structure TimingRecord where
  addr : Nat
  reqCycle : Nat
  respCycle : Nat
  type : AccessType
  startEvent : EventPtr
  endEvent : EventPtr
  deriving DecidableEq, Repr

/-- Modelled from the spec: `TimingRecord::isValid`, a record is valid when it has a
start node. -/
def TimingRecord.isValid (tr : TimingRecord) : Bool := tr.startEvent.isSome

/-- Modelled from the spec: `TimingRecord::clear` marks the record as invalid. -/
def TimingRecord.clear (tr : TimingRecord) : TimingRecord := { tr with startEvent := none }

/-- The local `TimingRecord wbAcc;` before `clear()`: its fields are unspecified in the
source and are never read before being overwritten; the model fixes them to zero. -/
def TimingRecord.uninit : TimingRecord :=
  { addr := 0, reqCycle := 0, respCycle := 0, type := AccessType.GETS,
    startEvent := none, endEvent := none }

/-- Modelled from the spec: `DelayEvent` is declared in `timing_event.h`, which is not
part of the sources at hand.  A node carrying a fixed delay, a minimum start cycle and
its child nodes (spec §3). -/
structure DelayEvent where
  delay : Nat
  minStartCycle : Nat
  children : List EventPtr
  deriving DecidableEq, Repr

/-- Modelled from the spec: `EventRecorder` is declared in `event_recorder.h`, which is
not part of the sources at hand.  The pending timing records (most recent first) and the
arena of event nodes owned by this origin; an event handle is an index into the arena
(spec §9, "arena allocator ... returning stable indices"). -/
structure EventRecorder where
  trStack : List TimingRecord
  events : List DelayEvent
  deriving DecidableEq, Repr

/-- Modelled from the spec: `EventRecorder::hasRecord`, some record is pending. -/
def EventRecorder.hasRecord (r : EventRecorder) : Bool := !r.trStack.isEmpty

/-- Modelled from the spec: `EventRecorder::popRecord`, removes and returns the most
recent pending record.  The source only calls it under `hasRecord()`. -/
def EventRecorder.popRecord (r : EventRecorder) : TimingRecord × EventRecorder :=
  match r.trStack with
  | [] => (TimingRecord.uninit, r)
  | t :: ts => (t, { r with trStack := ts })

/-- Modelled from the spec: `EventRecorder::pushRecord`, publishes a record. -/
def EventRecorder.pushRecord (r : EventRecorder) (tr : TimingRecord) : EventRecorder :=
  { r with trStack := tr :: r.trStack }

/-- Modelled from the spec: `new (evRec) DelayEvent(delay)`, allocates a fresh node in
the recorder's arena and returns its handle.  The width of the delay parameter is fixed
by the absent header; the node keeps the 64-bit value that the source computes. -/
def EventRecorder.newDelayEvent (r : EventRecorder) (delay : Nat) : Nat × EventRecorder :=
  (r.events.length,
   { r with events := r.events ++ [{ delay := delay, minStartCycle := 0, children := [] }] })

/-- Apply `f` to the node stored at handle `ev`, if there is one. -/
def EventRecorder.modifyEvent (r : EventRecorder) (ev : Nat) (f : DelayEvent → DelayEvent) :
    EventRecorder :=
  match r.events.get? ev with
  | some e => { r with events := r.events.set ev (f e) }
  | none => r

/-- Modelled from the spec: `TimingEvent::setMinStartCycle`. -/
def EventRecorder.setMinStartCycle (r : EventRecorder) (ev : Nat) (cycle : Nat) :
    EventRecorder :=
  r.modifyEvent ev (fun e => { e with minStartCycle := cycle })

/-- Modelled from the spec: `TimingEvent::addChild(child, evRec)`, appends `child` to the
children of `parent` and returns `child` (used for chaining). -/
def EventRecorder.addChild (r : EventRecorder) (parent : Nat) (child : EventPtr) :
    EventPtr × EventRecorder :=
  (child, r.modifyEvent parent (fun e => { e with children := e.children ++ [child] }))

/-- Chained `addChild` on the handle returned by a previous `addChild`. -/
def EventRecorder.addChildTo (r : EventRecorder) (parent : EventPtr) (child : EventPtr) :
    EventPtr × EventRecorder :=
  match parent with
  | some p => r.addChild p child
  | none => (child, r)

/-! ## Machine arithmetic -/

/-- Width of `uint64_t`. -/
def U64 : Nat := 2 ^ 64

/-- Addition on `uint64_t`. -/
def add64 (a b : Nat) : Nat := (a + b) % U64

/-- Subtraction on `uint64_t`. -/
def sub64 (a b : Nat) : Nat := (a % U64 + U64 - b % U64) % U64

/-! ## Collaborators and the call log -/

/-- What the collaborators act on: their own state and the per-origin event recorders. -/
structure Sys (σ : Type) where
  cs : σ
  recorders : Nat → EventRecorder

/-- Coherence controller (`CC`), a parameter of the model.  `startAccess` returns the
skip flag and the request kind it leaves in the request (source: "may change
req.type!").  `processEviction` and `processAccess` may emit timing records (source:
"Writeback access may have a timing record", "Access may have generated another timing
record"), so they act on the recorders as well. -/
structure CC (σ : Type) where
  startAccess : MemReq → σ → Bool × AccessType × σ
  shouldAllocate : MemReq → σ → Bool × σ
  processEviction : MemReq → Nat → Int → Nat → Sys σ → Sys σ
  processAccess : MemReq → Int → Nat → Sys σ → Nat × Sys σ
  endAccess : MemReq → σ → σ
  processInv : InvReq → Int → Nat → Sys σ → Nat × Sys σ

/-- Cache array (`CacheArray`), a parameter of the model.  `lookup` returns the slot id or
`-1`; `preinsert` returns the victim slot id and the victim line address. -/
structure CacheArray (σ : Type) where
  lookup : Nat → Option MemReq → Bool → σ → Int × σ
  preinsert : Nat → MemReq → σ → Int × Nat × σ
  postinsert : Nat → MemReq → Int → σ → σ

/-- One entry of the call log: a call made by the orchestrator, with its arguments. -/
inductive Call where
  | startAccess (req : MemReq)
  | lookup (lineAddr : Nat) (req : Option MemReq) (updateReplacement : Bool)
  | shouldAllocate (req : MemReq)
  | preinsert (lineAddr : Nat) (req : MemReq)
  | processEviction (req : MemReq) (wbLineAddr : Nat) (lineId : Int) (cycle : Nat)
  | postinsert (lineAddr : Nat) (req : MemReq) (lineId : Int)
  | hasRecord (srcId : Nat)
  | popRecord (srcId : Nat)
  | processAccess (req : MemReq) (lineId : Int) (cycle : Nat)
  | pushRecord (srcId : Nat) (tr : TimingRecord)
  | newDelayEvent (srcId : Nat) (delay : Nat)
  | setMinStartCycle (srcId : Nat) (ev : Nat) (cycle : Nat)
  | addChild (srcId : Nat) (parent : EventPtr) (child : EventPtr)
  | endAccess (req : MemReq)
  | processInv (req : InvReq) (lineId : Int) (cycle : Nat)
  deriving DecidableEq, Repr

/-- The cache instance: its collaborators, its two fixed latencies (`uint32_t`), and
which origins have an event recorder (`zinfo->eventRecorders[srcId]` is non-null). -/
structure Cache (σ : Type) where
  cc : CC σ
  array : CacheArray σ
  accLat : Nat
  invLat : Nat
  hasRecorder : Nat → Bool

/-- Running state of one call: collaborators, recorders, and the call log. -/
structure Machine (σ : Type) where
  sys : Sys σ
  log : List Call

/-- Fatal failures of the orchestrator. -/
inductive Fault where
  | wbReqCycle
  | accReqCycle
  | respBelowReq
  | missingLine
  deriving DecidableEq, Repr

/-- What a call of the orchestrator leaves behind: the returned cycle or the fatal
failure, the request as the caller sees it afterwards, the collaborators and recorders,
and the log of the calls made. -/
structure Outcome (σ : Type) where
  result : Except Fault Nat
  req : MemReq
  sys : Sys σ
  log : List Call

variable {σ : Type}

/-- Append a call to the log. -/
def Machine.emit (m : Machine σ) (k : Call) : Machine σ :=
  { m with log := m.log ++ [k] }

/-- Replace the collaborators' own state. -/
def Machine.setCs (m : Machine σ) (cs : σ) : Machine σ :=
  { m with sys := { m.sys with cs := cs } }

/-- Replace the recorder of origin `src`. -/
def Machine.setRecorder (m : Machine σ) (src : Nat) (r : EventRecorder) : Machine σ :=
  { m with sys := { m.sys with recorders := Function.update m.sys.recorders src r } }

/-- Logged `evRec->hasRecord()`. -/
def Machine.hasRecord (m : Machine σ) (src : Nat) : Bool × Machine σ :=
  ((m.sys.recorders src).hasRecord, m.emit (Call.hasRecord src))

/-- Logged `evRec->popRecord()`. -/
def Machine.popRecord (m : Machine σ) (src : Nat) : TimingRecord × Machine σ :=
  let p := (m.sys.recorders src).popRecord
  (p.1, (m.setRecorder src p.2).emit (Call.popRecord src))

/-- Logged `evRec->pushRecord(tr)`. -/
def Machine.pushRecord (m : Machine σ) (src : Nat) (tr : TimingRecord) : Machine σ :=
  (m.setRecorder src ((m.sys.recorders src).pushRecord tr)).emit (Call.pushRecord src tr)

/-- Logged `new (evRec) DelayEvent(delay)`. -/
def Machine.newDelayEvent (m : Machine σ) (src : Nat) (delay : Nat) : Nat × Machine σ :=
  let a := (m.sys.recorders src).newDelayEvent delay
  (a.1, (m.setRecorder src a.2).emit (Call.newDelayEvent src delay))

/-- Logged `ev->setMinStartCycle(cycle)`. -/
def Machine.setMinStartCycle (m : Machine σ) (src : Nat) (ev : Nat) (cycle : Nat) :
    Machine σ :=
  (m.setRecorder src ((m.sys.recorders src).setMinStartCycle ev cycle)).emit
    (Call.setMinStartCycle src ev cycle)

/-- Logged `parent->addChild(child, evRec)`. -/
def Machine.addChild (m : Machine σ) (src : Nat) (parent : EventPtr) (child : EventPtr) :
    EventPtr × Machine σ :=
  let a := (m.sys.recorders src).addChildTo parent child
  (a.1, (m.setRecorder src a.2).emit (Call.addChild src parent child))

/-! ## `Cache::access` -/

/-- The request after `cc->startAccess(req)`: only its kind may have changed. -/
def startReq (ch : Cache σ) (req : MemReq) (s : Sys σ) : MemReq :=
  { req with type := (ch.cc.startAccess req s.cs).2.1 }

/-- The skip flag returned by `cc->startAccess(req)` (line 63). -/
def skipAccess (ch : Cache σ) (req : MemReq) (s : Sys σ) : Bool :=
  (ch.cc.startAccess req s.cs).1

/-- The machine after line 63. -/
def afterStart (ch : Cache σ) (req : MemReq) (s : Sys σ) : Machine σ :=
  { sys := { s with cs := (ch.cc.startAccess req s.cs).2.2 },
    log := [Call.startAccess req] }

/-- Line 65: replacement is updated for genuine reads and writes only. -/
def updateReplacement (req : MemReq) : Bool :=
  (req.type == AccessType.GETS) || (req.type == AccessType.GETX)

/-- Lines 69–80: on a miss that must allocate, select a victim, notify the coherence
controller of the eviction, then commit the new line.  Returns the slot id handed on. -/
def makeSpace (ch : Cache σ) (req : MemReq) (lineId : Int) (respCycle : Nat)
    (m : Machine σ) : Int × Machine σ :=
  if lineId = -1 then
    let sa := ch.cc.shouldAllocate req m.sys.cs
    let m1 := (m.setCs sa.2).emit (Call.shouldAllocate req)
    if sa.1 then
      let pre := ch.array.preinsert req.lineAddr req m1.sys.cs
      let m2 := (m1.setCs pre.2.2).emit (Call.preinsert req.lineAddr req)
      let m3 : Machine σ :=
        { sys := ch.cc.processEviction req pre.2.1 pre.1 respCycle m2.sys,
          log := m2.log ++ [Call.processEviction req pre.2.1 pre.1 respCycle] }
      let m4 := (m3.setCs (ch.array.postinsert req.lineAddr req pre.1 m3.sys.cs)).emit
        (Call.postinsert req.lineAddr req pre.1)
      (pre.1, m4)
    else (lineId, m1)
  else (lineId, m)

/-- Lines 83–88: capture and clear the pending record of the origin, if any. -/
def drain (ch : Cache σ) (req : MemReq) (m : Machine σ) : TimingRecord × Machine σ :=
  let wbAcc := TimingRecord.uninit.clear
  if ch.hasRecorder req.srcId then
    let h := m.hasRecord req.srcId
    if h.1 then h.2.popRecord req.srcId else (wbAcc, h.2)
  else (wbAcc, m)

/-- The state with which control reaches line 90. -/
structure Front (σ : Type) where
  req : MemReq
  lineId : Int
  respCycle : Nat
  wbAcc : TimingRecord
  m : Machine σ

/-- Line 66: what `array->lookup` answers in a non-skipped access. -/
def lookupResult (ch : Cache σ) (req0 : MemReq) (s : Sys σ) : Int × σ :=
  ch.array.lookup (startReq ch req0 s).lineAddr (some (startReq ch req0 s))
    (updateReplacement (startReq ch req0 s)) (afterStart ch req0 s).sys.cs

/-- The machine after line 66. -/
def afterLookup (ch : Cache σ) (req0 : MemReq) (s : Sys σ) : Machine σ :=
  ((afterStart ch req0 s).setCs (lookupResult ch req0 s).2).emit
    (Call.lookup (startReq ch req0 s).lineAddr (some (startReq ch req0 s))
      (updateReplacement (startReq ch req0 s)))

/-- Lines 67–80: the slot id and the machine after the eviction step, run with the
response-cycle estimate `req.cycle + accLat`. -/
def afterMakeSpace (ch : Cache σ) (req0 : MemReq) (s : Sys σ) : Int × Machine σ :=
  makeSpace ch (startReq ch req0 s) (lookupResult ch req0 s).1
    (add64 req0.cycle ch.accLat) (afterLookup ch req0 s)

/-- Lines 65–88 of a non-skipped access. -/
def front (ch : Cache σ) (req0 : MemReq) (s : Sys σ) : Front σ :=
  let req := startReq ch req0 s
  let ms := afterMakeSpace ch req0 s
  let d := drain ch req ms.2
  { req := req, lineId := ms.1, respCycle := add64 req0.cycle ch.accLat, wbAcc := d.1,
    m := d.2 }

/-- Line 69: what `cc->shouldAllocate` answers when it is consulted after the lookup. -/
def allocDecision (ch : Cache σ) (req0 : MemReq) (s : Sys σ) : Bool × σ :=
  ch.cc.shouldAllocate (startReq ch req0 s) (lookupResult ch req0 s).2

/-- Line 72: what `array->preinsert` answers when a line is allocated: the victim's slot
id and line address. -/
def victim (ch : Cache σ) (req0 : MemReq) (s : Sys σ) : Int × Nat × σ :=
  ch.array.preinsert (startReq ch req0 s).lineAddr (startReq ch req0 s)
    (allocDecision ch req0 s).2

/-- Line 90: `respCycle = cc->processAccess(req, lineId, respCycle)`. -/
def mainAccess (ch : Cache σ) (f : Front σ) : Nat × Machine σ :=
  let pa := ch.cc.processAccess f.req f.lineId f.respCycle f.m.sys
  (pa.1, { sys := pa.2, log := f.m.log ++ [Call.processAccess f.req f.lineId f.respCycle] })

/-- Lines 104–116: connect both records under a new zero-delay start node. -/
def connect (req : MemReq) (wbAcc acc : TimingRecord) (m : Machine σ) : Machine σ :=
  let src := req.srcId
  let startEv := m.newDelayEvent src 0
  let dWbEv := startEv.2.newDelayEvent src (sub64 wbAcc.reqCycle req.cycle)
  let dAccEv := dWbEv.2.newDelayEvent src (sub64 acc.reqCycle req.cycle)
  let m1 := dAccEv.2.setMinStartCycle src startEv.1 req.cycle
  let m2 := m1.setMinStartCycle src dWbEv.1 req.cycle
  let m3 := m2.setMinStartCycle src dAccEv.1 req.cycle
  let w1 := m3.addChild src (some startEv.1) (some dWbEv.1)
  let w2 := w1.2.addChild src w1.1 wbAcc.startEvent
  let a1 := w2.2.addChild src (some startEv.1) (some dAccEv.1)
  let a2 := a1.2.addChild src a1.1 acc.startEvent
  a2.2.pushRecord src { acc with reqCycle := req.cycle, startEvent := some startEv.1 }

/-- Lines 94–118: republish the writeback record, or stitch it with the record of the
main access.  `none` is normal completion, `some f` a failed assertion. -/
def stitch (req : MemReq) (wbAcc : TimingRecord) (m : Machine σ) :
    Option Fault × Machine σ :=
  if wbAcc.isValid then
    let h := m.hasRecord req.srcId
    if !h.1 then
      (none, h.2.pushRecord req.srcId { wbAcc with endEvent := none })
    else
      let p := h.2.popRecord req.srcId
      if wbAcc.reqCycle < req.cycle then (some Fault.wbReqCycle, p.2)
      else if p.1.reqCycle < req.cycle then (some Fault.accReqCycle, p.2)
      else (none, connect req wbAcc p.1 p.2)
  else (none, m)

/-- Lines 121–125: `cc->endAccess(req)`, then the final assertion and the return. -/
def finish (ch : Cache σ) (req : MemReq) (respCycle : Nat) (m : Machine σ) : Outcome σ :=
  let m1 := (m.setCs (ch.cc.endAccess req m.sys.cs)).emit (Call.endAccess req)
  { result := if respCycle < req.cycle then Except.error Fault.respBelowReq
              else Except.ok respCycle,
    req := req, sys := m1.sys, log := m1.log }

/-- The response cycle computed by lines 62–90, before the final assertion: the request
cycle when the access is skipped, otherwise what `cc->processAccess` returned. -/
def computedRespCycle (ch : Cache σ) (req0 : MemReq) (s : Sys σ) : Nat :=
  if skipAccess ch req0 s then req0.cycle else (mainAccess ch (front ch req0 s)).1

/-- Embedding of `Cache::access` (lines 61–126). -/
def access (ch : Cache σ) (req0 : MemReq) (s : Sys σ) : Outcome σ :=
  if skipAccess ch req0 s then
    finish ch (startReq ch req0 s) req0.cycle (afterStart ch req0 s)
  else
    let f := front ch req0 s
    let pa := mainAccess ch f
    let st := stitch f.req f.wbAcc pa.2
    match st.1 with
    | some flt => { result := Except.error flt, req := f.req, sys := st.2.sys, log := st.2.log }
    | none => finish ch f.req pa.1 st.2

/-- The origin's recorder when control reaches line 83, after the eviction step and
before the pending record is captured. -/
def recorderBeforeDrain (ch : Cache σ) (req0 : MemReq) (s : Sys σ) : EventRecorder :=
  (afterMakeSpace ch req0 s).2.sys.recorders req0.srcId

/-- The origin's recorder as `cc->processAccess` leaves it (after line 90). -/
def recorderAfterMain (ch : Cache σ) (req0 : MemReq) (s : Sys σ) : EventRecorder :=
  (mainAccess ch (front ch req0 s)).2.sys.recorders req0.srcId

/-! ## `Cache::finishInvalidate` -/

/-- Embedding of `Cache::finishInvalidate` (lines 272–281). -/
def finishInvalidate (ch : Cache σ) (req : InvReq) (s : Sys σ) :
    Except Fault Nat × Machine σ :=
  let lk := ch.array.lookup req.lineAddr none false s.cs
  let m1 : Machine σ :=
    { sys := { s with cs := lk.2 }, log := [Call.lookup req.lineAddr none false] }
  if lk.1 = -1 then (Except.error Fault.missingLine, m1)
  else
    let respCycle := add64 req.cycle ch.invLat
    let pi := ch.cc.processInv req lk.1 respCycle m1.sys
    (Except.ok pi.1, { sys := pi.2, log := m1.log ++ [Call.processInv req lk.1 respCycle] })

/-! ## Reading the call log -/

/-- Which operation a log entry is a call of. -/
inductive CallKind where
  | startAccess
  | lookup
  | shouldAllocate
  | preinsert
  | processEviction
  | postinsert
  | hasRecord
  | popRecord
  | processAccess
  | pushRecord
  | newDelayEvent
  | setMinStartCycle
  | addChild
  | endAccess
  | processInv
  deriving DecidableEq, Repr

/-- The operation called by a log entry. -/
def Call.kind : Call → CallKind
  | Call.startAccess _ => CallKind.startAccess
  | Call.lookup _ _ _ => CallKind.lookup
  | Call.shouldAllocate _ => CallKind.shouldAllocate
  | Call.preinsert _ _ => CallKind.preinsert
  | Call.processEviction _ _ _ _ => CallKind.processEviction
  | Call.postinsert _ _ _ => CallKind.postinsert
  | Call.hasRecord _ => CallKind.hasRecord
  | Call.popRecord _ => CallKind.popRecord
  | Call.processAccess _ _ _ => CallKind.processAccess
  | Call.pushRecord _ _ => CallKind.pushRecord
  | Call.newDelayEvent _ _ => CallKind.newDelayEvent
  | Call.setMinStartCycle _ _ _ => CallKind.setMinStartCycle
  | Call.addChild _ _ _ => CallKind.addChild
  | Call.endAccess _ => CallKind.endAccess
  | Call.processInv _ _ _ => CallKind.processInv

/-- The calls of operation `k` in a log, in order. -/
def callsOf (k : CallKind) (log : List Call) : List Call :=
  log.filter (fun c => c.kind = k)

/-- Operations of the event recorder and of its nodes. -/
def CallKind.onRecorder (k : CallKind) : Bool :=
  k = CallKind.hasRecord || k = CallKind.popRecord || k = CallKind.pushRecord ||
  k = CallKind.newDelayEvent || k = CallKind.setMinStartCycle || k = CallKind.addChild

/-- The four steps of a miss that allocates: victim selection, eviction notification,
commit, main processing. -/
def CallKind.allocStep (k : CallKind) : Bool :=
  k = CallKind.preinsert || k = CallKind.processEviction || k = CallKind.postinsert ||
  k = CallKind.processAccess

/-- The two assertions of the stitching step (lines 102–103). -/
def Fault.inStitch (f : Fault) : Bool :=
  f = Fault.wbReqCycle || f = Fault.accReqCycle

/-- The log `l2` continues the log `l1` with calls on the event recorder only. -/
def RecorderCallsOnly (l1 l2 : List Call) : Prop :=
  ∃ l, l2 = l1 ++ l ∧ ∀ c ∈ l, c.kind.onRecorder = true

/-- The calls `lM` made by lines 69–80 of a non-skipped access, and the slot id `lineId`
handed on to the main processing: nothing on a hit, `shouldAllocate` alone on a miss
that does not allocate, and `shouldAllocate`, `preinsert`, `processEviction`,
`postinsert` on a miss that allocates. -/
def MakeSpaceCalls (ch : Cache σ) (req0 : MemReq) (s : Sys σ) (lM : List Call)
    (lineId : Int) : Prop :=
  ((lookupResult ch req0 s).1 ≠ -1 ∧ lM = [] ∧ lineId = (lookupResult ch req0 s).1) ∨
  ((lookupResult ch req0 s).1 = -1 ∧ (allocDecision ch req0 s).1 = false ∧
    lM = [Call.shouldAllocate (startReq ch req0 s)] ∧ lineId = -1) ∨
  ((lookupResult ch req0 s).1 = -1 ∧ (allocDecision ch req0 s).1 = true ∧
    lM = [Call.shouldAllocate (startReq ch req0 s),
          Call.preinsert req0.lineAddr (startReq ch req0 s),
          Call.processEviction (startReq ch req0 s) (victim ch req0 s).2.1
            (victim ch req0 s).1 (add64 req0.cycle ch.accLat),
          Call.postinsert req0.lineAddr (startReq ch req0 s) (victim ch req0 s).1] ∧
    lineId = (victim ch req0 s).1)

/-! ## Test doubles

Scripted collaborators without state of their own, used to run the model on the
scenarios of the specification. -/

/-- What the scripted collaborators answer. -/
structure Script where
  skip : Bool
  lookupId : Int
  alloc : Bool
  victimId : Int
  victimAddr : Nat
  wbRecord : Option TimingRecord
  accRecord : Option TimingRecord
  accCycle : Nat
  invCycle : Nat

/-- Publish `tr`, if any, on the recorder of origin `src`. -/
def emitRecord (tr : Option TimingRecord) (src : Nat) (s : Sys Unit) : Sys Unit :=
  match tr with
  | some t =>
      { s with recorders := Function.update s.recorders src ((s.recorders src).pushRecord t) }
  | none => s

/-- Scripted coherence controller: the eviction publishes `wbRecord`, the main processing
publishes `accRecord` and answers `accCycle`. -/
def scriptedCC (sc : Script) : CC Unit where
  startAccess := fun req _ => (sc.skip, req.type, ())
  shouldAllocate := fun _ _ => (sc.alloc, ())
  processEviction := fun req _ _ _ s => emitRecord sc.wbRecord req.srcId s
  processAccess := fun req _ _ s => (sc.accCycle, emitRecord sc.accRecord req.srcId s)
  endAccess := fun _ _ => ()
  processInv := fun _ _ _ s => (sc.invCycle, s)

/-- Scripted array. -/
def scriptedArray (sc : Script) : CacheArray Unit where
  lookup := fun _ _ _ _ => (sc.lookupId, ())
  preinsert := fun _ _ _ => (sc.victimId, sc.victimAddr, ())
  postinsert := fun _ _ _ _ => ()

/-- Scripted cache with access latency 5 and invalidation latency 3; every origin has an
event recorder. -/
def scriptedCache (sc : Script) : Cache Unit where
  cc := scriptedCC sc
  array := scriptedArray sc
  accLat := 5
  invLat := 3
  hasRecorder := fun _ => true

/-- No pending record; the arena holds two nodes made earlier. -/
def idleRecorder : EventRecorder :=
  { trStack := [],
    events := [{ delay := 4, minStartCycle := 0, children := [] },
               { delay := 6, minStartCycle := 0, children := [] }] }

/-- All recorders idle. -/
def idleSys : Sys Unit := { cs := (), recorders := fun _ => idleRecorder }

/-- Read-exclusive request for line `0x40` issued at cycle 1000 by origin 0. -/
def reqX : MemReq :=
  { lineAddr := 64, type := AccessType.GETX, childId := 0, cycle := 1000, srcId := 0,
    flags := 0 }

/-- Invalidation of line `0x40` issued at cycle 1000. -/
def invReq : InvReq :=
  { lineAddr := 64, type := InvType.INV, cycle := 1000, srcId := 0 }

/-- Writeback record with reference cycle 1010, starting at node 0, ending at node 1. -/
def wbRec : TimingRecord :=
  { addr := 128, reqCycle := 1010, respCycle := 1015, type := AccessType.PUTX,
    startEvent := some 0, endEvent := some 1 }

/-- Main-access record with reference cycle 1020, starting and ending at node 1. -/
def accRec : TimingRecord :=
  { addr := 64, reqCycle := 1020, respCycle := 1030, type := AccessType.GETX,
    startEvent := some 1, endEvent := some 1 }

/-- Scenario: miss, no allocation, the controller answers 1008. -/
def missNoEvict : Script :=
  { skip := false, lookupId := -1, alloc := false, victimId := 0, victimAddr := 0,
    wbRecord := none, accRecord := none, accCycle := 1008, invCycle := 0 }

/-- Scenario: miss with eviction, both the writeback and the main access have a record. -/
def missBothRecords : Script :=
  { skip := false, lookupId := -1, alloc := true, victimId := 7, victimAddr := 128,
    wbRecord := some wbRec, accRecord := some accRec, accCycle := 1020, invCycle := 0 }

/-- Scenario: miss with eviction, only the writeback has a record. -/
def missWbOnly : Script :=
  { skip := false, lookupId := -1, alloc := true, victimId := 7, victimAddr := 128,
    wbRecord := some wbRec, accRecord := none, accCycle := 1020, invCycle := 0 }

/-- Scenario: hit at slot 3, the main access publishes a record. -/
def hitWithRecord : Script :=
  { skip := false, lookupId := 3, alloc := false, victimId := 0, victimAddr := 0,
    wbRecord := none, accRecord := some accRec, accCycle := 1020, invCycle := 0 }

/-- Scenario: the controller answers a cycle before the request cycle. -/
def respTooEarly : Script :=
  { skip := false, lookupId := 3, alloc := false, victimId := 0, victimAddr := 0,
    wbRecord := none, accRecord := none, accCycle := 999, invCycle := 0 }

/-- Scenario: the access is skipped. -/
def skipped : Script :=
  { skip := true, lookupId := 3, alloc := true, victimId := 7, victimAddr := 128,
    wbRecord := some wbRec, accRecord := some accRec, accCycle := 1020, invCycle := 0 }

/-- Scenario: invalidation of a line present at slot 3, the controller answers 1009. -/
def invPresent : Script :=
  { skip := false, lookupId := 3, alloc := false, victimId := 0, victimAddr := 0,
    wbRecord := none, accRecord := none, accCycle := 0, invCycle := 1009 }

/-- Scenario: invalidation of a line that is not present. -/
def invAbsent : Script :=
  { skip := false, lookupId := -1, alloc := false, victimId := 0, victimAddr := 0,
    wbRecord := none, accRecord := none, accCycle := 0, invCycle := 1009 }

/-- Write-back request for line `0x40` issued at cycle 1000 by origin 0. -/
def reqP : MemReq :=
  { lineAddr := 64, type := AccessType.PUTX, childId := 0, cycle := 1000, srcId := 0,
    flags := 0 }

/-! ## Further readings of the call log -/

/-- The three steps that install a line: victim selection, eviction notification,
commit. -/
def CallKind.evictStep (k : CallKind) : Bool :=
  k = CallKind.preinsert || k = CallKind.processEviction || k = CallKind.postinsert

/-- The origin's recorder at the moment `cc->processAccess` is called (line 90). -/
def recorderAtMain (ch : Cache σ) (req0 : MemReq) (s : Sys σ) : EventRecorder :=
  (front ch req0 s).m.sys.recorders req0.srcId

/-! ## Tracing sink: `findSubstring`, `enumAccessType`, `Cache::WriteData`

A C string is the list of its characters (byte values); reading at its length yields the
terminating NUL, which is `0`. -/

/-- The loop of `findSubstring` (lines 133–147), started at scan position `i` with the
characters of `string` from `i` on still to be read and `j` characters of `substring`
matched.  Each iteration consumes one character.  Returns the scan position at which the
source returns `true`, or `none` where the source returns `false`. -/
def findSubstringLoop (substring : List Nat) : List Nat → Nat → Nat → Option Nat
  | [], _, _ => none
  | c :: cs, i, j =>
    if c = 0 then none
    else if c = substring.getD j 0 then
      if substring.getD (j + 1) 0 = 0 then some i
      else findSubstringLoop substring cs (i + 1) (j + 1)
    else findSubstringLoop substring cs (i + 1) 0

/-- Embedding of `findSubstring` (lines 129–149). -/
def findSubstring (string substring : List Nat) : Bool :=
  (findSubstringLoop substring string 0 0).isSome

/-- Embedding of `enumAccessType` (lines 152–162); the four kinds are all there are, so
the `exit(1)` branch is not reachable. -/
def enumAccessType (t : AccessType) : Nat :=
  match t with
  | AccessType.GETS => 0
  | AccessType.GETX => 1
  | AccessType.PUTS => 2
  | AccessType.PUTX => 3

/-- Left shift on `uint64_t`. -/
def shl64 (a b : Nat) : Nat := (a * 2 ^ b) % U64

/-- One object handed to `fwrite`: a single `char`, a run of bytes, a `uint64_t` or a
`uint8_t`. -/
inductive Written where
  | char (c : Nat)
  | bytes (bs : List Nat)
  | u64 (v : Nat)
  | u8 (v : Nat)
  deriving DecidableEq, Repr

/-- Number of bytes that an object takes in the file. -/
def Written.size : Written → Nat
  | Written.char _ => 1
  | Written.bytes bs => bs.length
  | Written.u64 _ => 8
  | Written.u8 _ => 1

/-- Number of bytes of a sequence of written objects. -/
def totalSize (ws : List Written) : Nat := (ws.map Written.size).sum

/-- What the tracing sink reads from the simulator: whether a trace file is configured
(`zinfo->data_trace_output_FP` is non-null), the configured last-level-cache name, the
line size and the line-size bits, the bytes that lie in memory after the terminator of
the cache's name, and what `PIN_SafeCopy` copies from an address for a size. -/
structure TraceEnv where
  traceFile : Bool
  llcName : List Nat
  lineSize : Nat
  lineBits : Nat
  afterName : Nat → Nat
  pinSafeCopy : Nat → Nat → List Nat

/-- The byte at offset `i` of `name.c_str()`: the characters of the name, then the
terminator, then the memory that follows. -/
def nameByte (env : TraceEnv) (name : List Nat) (i : Nat) : Nat :=
  if i < name.length then name.getD i 0
  else if i = name.length then 0
  else env.afterName (i - name.length - 1)

/-- The `n` bytes that `fwrite(o_name, sizeof(char), n, ...)` reads. -/
def nameBytes (env : TraceEnv) (name : List Nat) (n : Nat) : List Nat :=
  (List.range n).map (nameByte env name)

/-- Lines 215–217: a zeroed buffer of `lineSize` bytes into which `PIN_SafeCopy` copies
what it can read at the byte address of the line. -/
def lineData (env : TraceEnv) (reqAddress : Nat) : List Nat :=
  (env.pinSafeCopy reqAddress env.lineSize ++ List.replicate env.lineSize 0).take
    env.lineSize

/-- Lines 225–240 and 246–261: the six `fwrite` calls of one record. -/
def traceRecord (env : TraceEnv) (name : List Nat) (req : MemReq) (rw : Nat) :
    List Written :=
  [Written.char rw,
   Written.bytes (nameBytes env name 10),
   Written.u64 req.cycle,
   Written.u8 (enumAccessType req.type),
   Written.u64 (shl64 req.lineAddr env.lineBits),
   Written.bytes (lineData env (shl64 req.lineAddr env.lineBits))]

/-- Embedding of `Cache::WriteData` (lines 207–266): the objects appended to the trace
file.  `'r'` is 114 and `'w'` is 119. -/
def WriteData (env : TraceEnv) (name : List Nat) (req : MemReq) (isMiss : Bool) :
    List Written :=
  if env.traceFile = false then []
  else if !findSubstring name env.llcName then []
  else if req.type = AccessType.GETS ∨ req.type = AccessType.GETX then
    if isMiss then traceRecord env name req 114 else []
  else traceRecord env name req 119

/-- The characters `l3`. -/
def strL3 : List Nat := [108, 51]

/-- The characters `l3-0`. -/
def strL3Bank : List Nat := [108, 51, 45, 48]

/-- The characters `ll3`. -/
def strLL3 : List Nat := [108, 108, 51]

/-- Tracing configured for caches named after `l3`, lines of 4 bytes (2 line bits); the
memory after the name reads 7, 8, 9, ... and every line reads as 1, 2, 3, 4. -/
def traceEnv : TraceEnv :=
  { traceFile := true, llcName := strL3, lineSize := 4, lineBits := 2,
    afterName := fun i => 7 + i, pinSafeCopy := fun _ _ => [1, 2, 3, 4] }

/-! ## Journalling test doubles

Collaborators whose own state is the journal of the calls they received, with the
arguments they received; it is kept by the collaborators, independently of the call log
of the orchestrator. -/

/-- Publish `tr`, if any, on the recorder of origin `src`, and journal `k`. -/
def journalEmit (tr : Option TimingRecord) (src : Nat) (k : Call) (s : Sys (List Call)) :
    Sys (List Call) :=
  match tr with
  | some t =>
      { cs := s.cs ++ [k],
        recorders := Function.update s.recorders src ((s.recorders src).pushRecord t) }
  | none => { cs := s.cs ++ [k], recorders := s.recorders }

/-- Journalling coherence controller, answering as `sc` says. -/
def journalCC (sc : Script) : CC (List Call) where
  startAccess := fun req j => (sc.skip, req.type, j ++ [Call.startAccess req])
  shouldAllocate := fun req j => (sc.alloc, j ++ [Call.shouldAllocate req])
  processEviction := fun req wb id c s =>
    journalEmit sc.wbRecord req.srcId (Call.processEviction req wb id c) s
  processAccess := fun req id c s =>
    (sc.accCycle, journalEmit sc.accRecord req.srcId (Call.processAccess req id c) s)
  endAccess := fun req j => j ++ [Call.endAccess req]
  processInv := fun req id c s =>
    (sc.invCycle, { cs := s.cs ++ [Call.processInv req id c], recorders := s.recorders })

/-- Journalling array, answering as `sc` says. -/
def journalArray (sc : Script) : CacheArray (List Call) where
  lookup := fun a r u j => (sc.lookupId, j ++ [Call.lookup a r u])
  preinsert := fun a r j => (sc.victimId, sc.victimAddr, j ++ [Call.preinsert a r])
  postinsert := fun a r id j => j ++ [Call.postinsert a r id]

/-- Journalling cache with access latency 5 and invalidation latency 3; every origin has
an event recorder. -/
def journalCache (sc : Script) : Cache (List Call) where
  cc := journalCC sc
  array := journalArray sc
  accLat := 5
  invLat := 3
  hasRecorder := fun _ => true

/-- Empty journal, all recorders idle. -/
def journalSys : Sys (List Call) := { cs := [], recorders := fun _ => idleRecorder }

/-- Writeback record whose reference cycle 990 lies before the request cycle 1000. -/
def wbRecEarly : TimingRecord :=
  { addr := 128, reqCycle := 990, respCycle := 995, type := AccessType.PUTX,
    startEvent := some 0, endEvent := some 1 }

/-- Scenario: miss with eviction, both records present, the writeback record has a
reference cycle before the request cycle. -/
def missWbEarly : Script :=
  { skip := false, lookupId := -1, alloc := true, victimId := 7, victimAddr := 128,
    wbRecord := some wbRecEarly, accRecord := some accRec, accCycle := 1020,
    invCycle := 0 }

/-! ## Projections of the logged operations -/

@[simp] theorem emit_log (m : Machine σ) (k : Call) : (m.emit k).log = m.log ++ [k] := rfl

@[simp] theorem emit_sys (m : Machine σ) (k : Call) : (m.emit k).sys = m.sys := rfl

@[simp] theorem setCs_log (m : Machine σ) (cs : σ) : (m.setCs cs).log = m.log := rfl

@[simp] theorem setCs_cs (m : Machine σ) (cs : σ) : (m.setCs cs).sys.cs = cs := rfl

@[simp] theorem setCs_recorders (m : Machine σ) (cs : σ) :
    (m.setCs cs).sys.recorders = m.sys.recorders := rfl

@[simp] theorem setRecorder_log (m : Machine σ) (src : Nat) (r : EventRecorder) :
    (m.setRecorder src r).log = m.log := rfl

@[simp] theorem setRecorder_cs (m : Machine σ) (src : Nat) (r : EventRecorder) :
    (m.setRecorder src r).sys.cs = m.sys.cs := rfl

@[simp] theorem setRecorder_same (m : Machine σ) (src : Nat) (r : EventRecorder) :
    (m.setRecorder src r).sys.recorders src = r := by
  simp [Machine.setRecorder]


/-! ## Shape of an access -/

theorem startReq_cycle (ch : Cache σ) (req : MemReq) (s : Sys σ) :
    (startReq ch req s).cycle = req.cycle := rfl

theorem startReq_srcId (ch : Cache σ) (req : MemReq) (s : Sys σ) :
    (startReq ch req s).srcId = req.srcId := rfl

theorem startReq_lineAddr (ch : Cache σ) (req : MemReq) (s : Sys σ) :
    (startReq ch req s).lineAddr = req.lineAddr := rfl

theorem front_req (ch : Cache σ) (req : MemReq) (s : Sys σ) :
    (front ch req s).req = startReq ch req s := rfl

theorem front_respCycle (ch : Cache σ) (req : MemReq) (s : Sys σ) :
    (front ch req s).respCycle = add64 req.cycle ch.accLat := rfl

theorem access_skip (ch : Cache σ) (req : MemReq) (s : Sys σ)
    (h : skipAccess ch req s = true) :
    access ch req s = finish ch (startReq ch req s) req.cycle (afterStart ch req s) := by
  simp [access, h]

theorem access_fault (ch : Cache σ) (req : MemReq) (s : Sys σ) (flt : Fault)
    (h : skipAccess ch req s = false)
    (hs : (stitch (front ch req s).req (front ch req s).wbAcc
      (mainAccess ch (front ch req s)).2).1 = some flt) :
    access ch req s =
      { result := Except.error flt, req := (front ch req s).req,
        sys := (stitch (front ch req s).req (front ch req s).wbAcc
          (mainAccess ch (front ch req s)).2).2.sys,
        log := (stitch (front ch req s).req (front ch req s).wbAcc
          (mainAccess ch (front ch req s)).2).2.log } := by
  simp [access, h, hs]

theorem access_run (ch : Cache σ) (req : MemReq) (s : Sys σ)
    (h : skipAccess ch req s = false)
    (hs : (stitch (front ch req s).req (front ch req s).wbAcc
      (mainAccess ch (front ch req s)).2).1 = none) :
    access ch req s =
      finish ch (front ch req s).req (mainAccess ch (front ch req s)).1
        (stitch (front ch req s).req (front ch req s).wbAcc
          (mainAccess ch (front ch req s)).2).2 := by
  simp [access, h, hs]

theorem finish_result_ok (ch : Cache σ) (req : MemReq) (c r : Nat) (m : Machine σ)
    (h : (finish ch req c m).result = Except.ok r) : r = c ∧ req.cycle ≤ c := by
  unfold finish at h
  by_cases hc : c < req.cycle
  · simp [hc] at h
  · simp only [hc, if_false] at h
    injection h with h
    exact ⟨h.symm, Nat.le_of_not_lt hc⟩

theorem finish_result_early (ch : Cache σ) (req : MemReq) (c : Nat) (m : Machine σ)
    (h : c < req.cycle) : (finish ch req c m).result = Except.error Fault.respBelowReq := by
  simp [finish, h]

theorem finish_log (ch : Cache σ) (req : MemReq) (c : Nat) (m : Machine σ) :
    (finish ch req c m).log = m.log ++ [Call.endAccess req] := rfl

theorem finish_recorders (ch : Cache σ) (req : MemReq) (c : Nat) (m : Machine σ) :
    (finish ch req c m).sys.recorders = m.sys.recorders := rfl

theorem finish_req (ch : Cache σ) (req : MemReq) (c : Nat) (m : Machine σ) :
    (finish ch req c m).req = req := rfl

theorem access_req (ch : Cache σ) (req : MemReq) (s : Sys σ) :
    (access ch req s).req = startReq ch req s := by
  by_cases h : skipAccess ch req s = true
  · rw [access_skip ch req s h, finish_req]
  · have h' : skipAccess ch req s = false := by simpa using h
    cases hs : (stitch (front ch req s).req (front ch req s).wbAcc
        (mainAccess ch (front ch req s)).2).1 with
    | some flt => rw [access_fault ch req s flt h' hs, front_req]
    | none => rw [access_run ch req s h' hs, finish_req, front_req]

theorem access_response_core (ch : Cache σ) (req : MemReq) (s : Sys σ) :
    (∀ r, (access ch req s).result = Except.ok r →
      r = computedRespCycle ch req s ∧ req.cycle ≤ r) ∧
    (computedRespCycle ch req s < req.cycle →
      ∃ flt, (access ch req s).result = Except.error flt) := by
  by_cases h : skipAccess ch req s = true
  · rw [access_skip ch req s h]
    simp only [computedRespCycle, h, if_true]
    refine ⟨fun r hr => ?_, fun hlt => absurd hlt (Nat.lt_irrefl _)⟩
    obtain ⟨h1, h2⟩ := finish_result_ok ch _ _ _ _ hr
    exact ⟨h1, h1 ▸ Nat.le_refl _⟩
  · have h' : skipAccess ch req s = false := by simpa using h
    simp only [computedRespCycle, h', Bool.false_eq_true, if_false]
    cases hs : (stitch (front ch req s).req (front ch req s).wbAcc
        (mainAccess ch (front ch req s)).2).1 with
    | some flt =>
      rw [access_fault ch req s flt h' hs]
      exact ⟨fun r hr => by simp at hr, fun _ => ⟨flt, rfl⟩⟩
    | none =>
      rw [access_run ch req s h' hs]
      refine ⟨fun r hr => ?_, fun hlt => ⟨Fault.respBelowReq, ?_⟩⟩
      · obtain ⟨h1, h2⟩ := finish_result_ok ch _ _ _ _ hr
        rw [front_req, startReq_cycle] at h2
        exact ⟨h1, h1 ▸ h2⟩
      · exact finish_result_early ch _ _ _ (by rw [front_req, startReq_cycle]; exact hlt)

/-! ## Claims -/

/-- C1: whenever `Cache::access` returns a value `r`, `r` is at least the request cycle
(as issued, and as the caller sees it afterwards) and `r` is the computed response cycle;
when the computed response cycle is below the request cycle, the call fails fatally
instead of returning. -/
theorem access_response_not_before_request (ch : Cache σ) (req : MemReq) (s : Sys σ) :
    (∀ r, (access ch req s).result = Except.ok r →
      req.cycle ≤ r ∧ (access ch req s).req.cycle ≤ r ∧ r = computedRespCycle ch req s) ∧
    (computedRespCycle ch req s < req.cycle →
      ∃ flt, (access ch req s).result = Except.error flt) := by
  refine ⟨fun r hr => ?_, (access_response_core ch req s).2⟩
  obtain ⟨h1, h2⟩ := (access_response_core ch req s).1 r hr
  refine ⟨h2, ?_, h1⟩
  rw [access_req, startReq_cycle]
  exact h2

/-- C1, on the scripted scenarios: an access whose controller answers 1008 for a request
issued at cycle 1000 returns 1008, and one whose controller answers 999 fails the final
assertion. -/
theorem access_response_not_before_request_witness :
    (access (scriptedCache missNoEvict) reqX idleSys).result = Except.ok 1008 ∧
    reqX.cycle ≤ 1008 ∧
    computedRespCycle (scriptedCache respTooEarly) reqX idleSys < reqX.cycle ∧
    (access (scriptedCache respTooEarly) reqX idleSys).result =
      Except.error Fault.respBelowReq :=
  ⟨rfl,
   ((access_response_not_before_request (scriptedCache missNoEvict) reqX idleSys).1 1008
      rfl).1,
   by decide, rfl⟩


/-! ## Call logs of the phases -/

theorem makeSpace_hit (ch : Cache σ) (req : MemReq) (lineId : Int) (rc : Nat)
    (m : Machine σ) (h : lineId ≠ -1) : makeSpace ch req lineId rc m = (lineId, m) := by
  simp [makeSpace, h]

theorem makeSpace_noalloc (ch : Cache σ) (req : MemReq) (rc : Nat) (m : Machine σ)
    (h : (ch.cc.shouldAllocate req m.sys.cs).1 = false) :
    makeSpace ch req (-1) rc m =
      (-1, (m.setCs (ch.cc.shouldAllocate req m.sys.cs).2).emit (Call.shouldAllocate req)) := by
  simp [makeSpace, h]

theorem makeSpace_alloc (ch : Cache σ) (req : MemReq) (rc : Nat) (m : Machine σ)
    (h : (ch.cc.shouldAllocate req m.sys.cs).1 = true) :
    (makeSpace ch req (-1) rc m).1 =
      (ch.array.preinsert req.lineAddr req (ch.cc.shouldAllocate req m.sys.cs).2).1 ∧
    (makeSpace ch req (-1) rc m).2.log = m.log ++
      [Call.shouldAllocate req, Call.preinsert req.lineAddr req,
       Call.processEviction req
         (ch.array.preinsert req.lineAddr req (ch.cc.shouldAllocate req m.sys.cs).2).2.1
         (ch.array.preinsert req.lineAddr req (ch.cc.shouldAllocate req m.sys.cs).2).1 rc,
       Call.postinsert req.lineAddr req
         (ch.array.preinsert req.lineAddr req (ch.cc.shouldAllocate req m.sys.cs).2).1] := by
  simp [makeSpace, h]

theorem recorderCallsOnly_refl (l : List Call) : RecorderCallsOnly l l :=
  ⟨[], by simp, by simp⟩

theorem recorderCallsOnly_trans {l1 l2 l3 : List Call} (h1 : RecorderCallsOnly l1 l2)
    (h2 : RecorderCallsOnly l2 l3) : RecorderCallsOnly l1 l3 := by
  obtain ⟨a, rfl, ha⟩ := h1
  obtain ⟨b, rfl, hb⟩ := h2
  refine ⟨a ++ b, by simp, ?_⟩
  intro c hc
  rcases List.mem_append.mp hc with h | h
  · exact ha c h
  · exact hb c h

theorem recorderCallsOnly_snoc (l : List Call) (k : Call) (hk : k.kind.onRecorder = true) :
    RecorderCallsOnly l (l ++ [k]) :=
  ⟨[k], rfl, by intro c hc; simp at hc; subst hc; exact hk⟩

theorem hasRecord_calls {l : List Call} {m : Machine σ} (src : Nat)
    (h : RecorderCallsOnly l m.log) : RecorderCallsOnly l (m.hasRecord src).2.log :=
  recorderCallsOnly_trans h (recorderCallsOnly_snoc _ _ rfl)

theorem popRecord_calls {l : List Call} {m : Machine σ} (src : Nat)
    (h : RecorderCallsOnly l m.log) : RecorderCallsOnly l (m.popRecord src).2.log :=
  recorderCallsOnly_trans h (recorderCallsOnly_snoc _ _ rfl)

theorem pushRecord_calls {l : List Call} {m : Machine σ} (src : Nat) (tr : TimingRecord)
    (h : RecorderCallsOnly l m.log) : RecorderCallsOnly l (m.pushRecord src tr).log :=
  recorderCallsOnly_trans h (recorderCallsOnly_snoc _ _ rfl)

theorem newDelayEvent_calls {l : List Call} {m : Machine σ} (src : Nat) (d : Nat)
    (h : RecorderCallsOnly l m.log) : RecorderCallsOnly l (m.newDelayEvent src d).2.log :=
  recorderCallsOnly_trans h (recorderCallsOnly_snoc _ _ rfl)

theorem setMinStartCycle_calls {l : List Call} {m : Machine σ} (src ev c : Nat)
    (h : RecorderCallsOnly l m.log) : RecorderCallsOnly l (m.setMinStartCycle src ev c).log :=
  recorderCallsOnly_trans h (recorderCallsOnly_snoc _ _ rfl)

theorem addChild_calls {l : List Call} {m : Machine σ} (src : Nat) (p c : EventPtr)
    (h : RecorderCallsOnly l m.log) : RecorderCallsOnly l (m.addChild src p c).2.log :=
  recorderCallsOnly_trans h (recorderCallsOnly_snoc _ _ rfl)

theorem connect_calls {l : List Call} (req : MemReq) (wbAcc acc : TimingRecord)
    (m : Machine σ) (h : RecorderCallsOnly l m.log) :
    RecorderCallsOnly l (connect req wbAcc acc m).log := by
  unfold connect
  apply pushRecord_calls
  apply addChild_calls
  apply addChild_calls
  apply addChild_calls
  apply addChild_calls
  apply setMinStartCycle_calls
  apply setMinStartCycle_calls
  apply setMinStartCycle_calls
  apply newDelayEvent_calls
  apply newDelayEvent_calls
  apply newDelayEvent_calls
  exact h

theorem stitch_calls (req : MemReq) (wbAcc : TimingRecord) (m : Machine σ) :
    RecorderCallsOnly m.log (stitch req wbAcc m).2.log := by
  have h0 := recorderCallsOnly_refl m.log
  simp only [stitch]
  split_ifs
  · exact pushRecord_calls _ _ (hasRecord_calls _ h0)
  · exact popRecord_calls _ (hasRecord_calls _ h0)
  · exact popRecord_calls _ (hasRecord_calls _ h0)
  · exact connect_calls _ _ _ _ (popRecord_calls _ (hasRecord_calls _ h0))
  · exact h0

theorem stitch_fault (req : MemReq) (wbAcc : TimingRecord) (m : Machine σ) (flt : Fault)
    (h : (stitch req wbAcc m).1 = some flt) : flt.inStitch = true := by
  simp only [stitch] at h
  split_ifs at h <;> simp at h <;> subst h <;> rfl

theorem drain_log (ch : Cache σ) (req : MemReq) (m : Machine σ) :
    ∃ l, (drain ch req m).2.log = m.log ++ l ∧
      ∀ c ∈ l, c.kind = CallKind.hasRecord ∨ c.kind = CallKind.popRecord := by
  unfold drain
  by_cases h : ch.hasRecorder req.srcId = true
  · by_cases h2 : (m.sys.recorders req.srcId).hasRecord = true
    · refine ⟨[Call.hasRecord req.srcId, Call.popRecord req.srcId], ?_, ?_⟩
      · simp [h, h2, Machine.hasRecord, Machine.popRecord]
      · intro c hc
        simp at hc
        rcases hc with rfl | rfl <;> simp [Call.kind]
    · refine ⟨[Call.hasRecord req.srcId], ?_, ?_⟩
      · simp [h, h2, Machine.hasRecord]
      · intro c hc
        simp at hc
        subst hc
        simp [Call.kind]
  · exact ⟨[], by simp [h], by simp⟩

theorem drainKind_onRecorder (c : Call)
    (h : c.kind = CallKind.hasRecord ∨ c.kind = CallKind.popRecord) :
    c.kind.onRecorder = true := by
  rcases h with h | h <;> rw [h] <;> rfl

theorem filter_recorder (p : Call → Bool) (l : List Call)
    (hp : ∀ c, c.kind.onRecorder = true → p c = false)
    (hl : ∀ c ∈ l, c.kind.onRecorder = true) : l.filter p = [] := by
  rw [List.filter_eq_nil_iff]
  intro c hc
  rw [hp c (hl c hc)]
  exact Bool.false_ne_true

theorem callsOf_append (k : CallKind) (l1 l2 : List Call) :
    callsOf k (l1 ++ l2) = callsOf k l1 ++ callsOf k l2 := by
  simp [callsOf]

theorem callsOf_recorder (k : CallKind) (l : List Call) (hk : k.onRecorder = false)
    (hl : ∀ c ∈ l, c.kind.onRecorder = true) : callsOf k l = [] := by
  apply filter_recorder _ _ _ hl
  intro c hc
  simp only [decide_eq_false_iff_not]
  intro hck
  rw [hck, hk] at hc
  exact Bool.noConfusion hc

theorem afterLookup_log (ch : Cache σ) (req : MemReq) (s : Sys σ) :
    (afterLookup ch req s).log =
      [Call.startAccess req,
       Call.lookup req.lineAddr (some (startReq ch req s))
         (updateReplacement (startReq ch req s))] := rfl

theorem afterLookup_cs (ch : Cache σ) (req : MemReq) (s : Sys σ) :
    (afterLookup ch req s).sys.cs = (lookupResult ch req s).2 := rfl

theorem afterMakeSpace_calls (ch : Cache σ) (req : MemReq) (s : Sys σ) :
    ∃ lM, (afterMakeSpace ch req s).2.log = (afterLookup ch req s).log ++ lM ∧
      MakeSpaceCalls ch req s lM (afterMakeSpace ch req s).1 := by
  unfold afterMakeSpace
  by_cases hhit : (lookupResult ch req s).1 = -1
  · rw [hhit]
    by_cases ha : (allocDecision ch req s).1 = true
    · have ha' : (ch.cc.shouldAllocate (startReq ch req s)
          (afterLookup ch req s).sys.cs).1 = true := ha
      obtain ⟨h1, h2⟩ := makeSpace_alloc ch (startReq ch req s)
        (add64 req.cycle ch.accLat) (afterLookup ch req s) ha'
      exact ⟨_, h2, Or.inr (Or.inr ⟨hhit, ha, rfl, h1⟩)⟩
    · have ha' : (ch.cc.shouldAllocate (startReq ch req s)
          (afterLookup ch req s).sys.cs).1 = false := by simpa [allocDecision] using ha
      rw [makeSpace_noalloc ch (startReq ch req s) _ _ ha']
      exact ⟨_, rfl, Or.inr (Or.inl ⟨hhit, by simpa using ha, rfl, rfl⟩)⟩
  · rw [makeSpace_hit _ _ _ _ _ hhit]
    exact ⟨[], by simp, Or.inl ⟨hhit, rfl, rfl⟩⟩

theorem front_log (ch : Cache σ) (req : MemReq) (s : Sys σ) :
    ∃ lM lR, (front ch req s).m.log =
        [Call.startAccess req,
         Call.lookup req.lineAddr (some (startReq ch req s))
           (updateReplacement (startReq ch req s))] ++ lM ++ lR ∧
      MakeSpaceCalls ch req s lM (front ch req s).lineId ∧
      (∀ c ∈ lR, c.kind = CallKind.hasRecord ∨ c.kind = CallKind.popRecord) := by
  obtain ⟨lM, h1, h2⟩ := afterMakeSpace_calls ch req s
  obtain ⟨lR, h3, h4⟩ := drain_log ch (startReq ch req s) (afterMakeSpace ch req s).2
  refine ⟨lM, lR, ?_, h2, h4⟩
  show (drain ch (startReq ch req s) (afterMakeSpace ch req s).2).2.log = _
  rw [h3, h1, afterLookup_log]

/-- Shape of the call log of a non-skipped access. -/
theorem access_log_shape (ch : Cache σ) (req : MemReq) (s : Sys σ)
    (h : skipAccess ch req s = false) :
    ∃ lM lR1 lR2 lE, (access ch req s).log =
        [Call.startAccess req,
         Call.lookup req.lineAddr (some (startReq ch req s))
           (updateReplacement (startReq ch req s))] ++ lM ++ lR1 ++
        [Call.processAccess (startReq ch req s) (front ch req s).lineId
           (add64 req.cycle ch.accLat)] ++ lR2 ++ lE ∧
      MakeSpaceCalls ch req s lM (front ch req s).lineId ∧
      (∀ c ∈ lR1, c.kind = CallKind.hasRecord ∨ c.kind = CallKind.popRecord) ∧
      (∀ c ∈ lR2, c.kind.onRecorder = true) ∧
      ((lE = [Call.endAccess (startReq ch req s)] ∧
          ∀ flt, (access ch req s).result = Except.error flt → flt.inStitch = false) ∨
       (lE = [] ∧ ∃ flt, (access ch req s).result = Except.error flt ∧
          flt.inStitch = true)) := by
  obtain ⟨lM, lR1, h1, h2, h3⟩ := front_log ch req s
  obtain ⟨lR2, h4, h5⟩ := stitch_calls (front ch req s).req (front ch req s).wbAcc
    (mainAccess ch (front ch req s)).2
  have h6 : (mainAccess ch (front ch req s)).2.log = (front ch req s).m.log ++
      [Call.processAccess (startReq ch req s) (front ch req s).lineId
        (add64 req.cycle ch.accLat)] := rfl
  cases hs : (stitch (front ch req s).req (front ch req s).wbAcc
      (mainAccess ch (front ch req s)).2).1 with
  | some flt =>
    refine ⟨lM, lR1, lR2, [], ?_, h2, h3, h5, Or.inr ⟨rfl, flt, ?_, ?_⟩⟩
    · rw [access_fault ch req s flt h hs]
      show (stitch _ _ _).2.log = _
      rw [h4, h6, h1]
      simp
    · rw [access_fault ch req s flt h hs]
    · exact stitch_fault _ _ _ _ hs
  | none =>
    refine ⟨lM, lR1, lR2, [Call.endAccess (startReq ch req s)], ?_, h2, h3, h5,
      Or.inl ⟨rfl, ?_⟩⟩
    · rw [access_run ch req s h hs, finish_log, h4, h6, h1]
      rfl
    · intro flt hf
      rw [access_run ch req s h hs] at hf
      unfold finish at hf
      split_ifs at hf
      · injection hf with hf
        subst hf
        rfl
      


theorem skip_log (ch : Cache σ) (req : MemReq) (s : Sys σ)
    (h : skipAccess ch req s = true) :
    (access ch req s).log = [Call.startAccess req, Call.endAccess (startReq ch req s)] := by
  rw [access_skip ch req s h]
  rfl

/-! ## Claims on the call sequence -/

/-- C2: in every access that `startAccess` does not skip, `processAccess` is called
exactly once, with the request, the slot id and the running estimate
`req.cycle + accLat` (64-bit addition, the plain sum when it fits); whatever the access
returns is the value `processAccess` returned, and it does return that value when no
assertion of the stitching step fails and the value is not below the request cycle. -/
theorem processAccess_once_and_authoritative (ch : Cache σ) (req : MemReq) (s : Sys σ)
    (h : skipAccess ch req s = false) :
    callsOf CallKind.processAccess (access ch req s).log =
      [Call.processAccess (startReq ch req s) (front ch req s).lineId
        (add64 req.cycle ch.accLat)] ∧
    (req.cycle + ch.accLat < U64 → add64 req.cycle ch.accLat = req.cycle + ch.accLat) ∧
    (∀ r, (access ch req s).result = Except.ok r →
      r = (ch.cc.processAccess (startReq ch req s) (front ch req s).lineId
        (add64 req.cycle ch.accLat) (front ch req s).m.sys).1) ∧
    ((stitch (front ch req s).req (front ch req s).wbAcc
        (mainAccess ch (front ch req s)).2).1 = none →
      req.cycle ≤ (ch.cc.processAccess (startReq ch req s) (front ch req s).lineId
        (add64 req.cycle ch.accLat) (front ch req s).m.sys).1 →
      (access ch req s).result = Except.ok
        (ch.cc.processAccess (startReq ch req s) (front ch req s).lineId
          (add64 req.cycle ch.accLat) (front ch req s).m.sys).1) := by
  refine ⟨?_, ?_, ?_, ?_⟩
  · obtain ⟨lM, lR1, lR2, lE, hlog, hM, h0, h2, hE⟩ := access_log_shape ch req s h
    have h1 := fun c hc => drainKind_onRecorder c (h0 c hc)
    rw [hlog]
    simp only [callsOf_append, callsOf_recorder CallKind.processAccess lR1 rfl h1,
      callsOf_recorder CallKind.processAccess lR2 rfl h2]
    have hlM : callsOf CallKind.processAccess lM = [] := by
      rcases hM with ⟨_, hl, _⟩ | ⟨_, _, hl, _⟩ | ⟨_, _, hl, _⟩ <;> rw [hl] <;> rfl
    have hlE : callsOf CallKind.processAccess lE = [] := by
      rcases hE with ⟨hl, _⟩ | ⟨hl, _⟩ <;> rw [hl] <;> rfl
    rw [hlM, hlE]
    rfl
  · intro hlt
    exact Nat.mod_eq_of_lt hlt
  · intro r hr
    have := ((access_response_core ch req s).1 r hr).1
    rw [this]
    simp [computedRespCycle, h, mainAccess, front_req, front_respCycle]
  · intro hs hle
    rw [access_run ch req s h hs]
    have : ¬ (mainAccess ch (front ch req s)).1 < (front ch req s).req.cycle :=
      Nat.not_lt.mpr hle
    simp only [finish, this, if_false]
    rfl

/-- C2, on the scenario of the specification: request cycle 1000, access latency 5, miss
without eviction, the controller answers 1008: `processAccess` is called once with the
estimate 1005 and the access returns 1008. -/
theorem processAccess_once_and_authoritative_witness :
    skipAccess (scriptedCache missNoEvict) reqX idleSys = false ∧
    callsOf CallKind.processAccess (access (scriptedCache missNoEvict) reqX idleSys).log =
      [Call.processAccess reqX (-1) 1005] ∧
    (access (scriptedCache missNoEvict) reqX idleSys).result = Except.ok 1008 :=
  ⟨rfl,
   (processAccess_once_and_authoritative (scriptedCache missNoEvict) reqX idleSys rfl).1,
   (processAccess_once_and_authoritative (scriptedCache missNoEvict) reqX idleSys
      rfl).2.2.2 rfl (by decide)⟩

theorem recorder_not_bracket (c : Call) (h : c.kind.onRecorder = true) :
    c.kind ≠ CallKind.startAccess ∧ c.kind ≠ CallKind.endAccess := by
  constructor <;> intro hk <;> rw [hk] at h <;> exact Bool.noConfusion h

theorem makeSpaceCalls_not_bracket (ch : Cache σ) (req : MemReq) (s : Sys σ)
    (lM : List Call) (lineId : Int) (hM : MakeSpaceCalls ch req s lM lineId) :
    ∀ c ∈ lM, c.kind ≠ CallKind.startAccess ∧ c.kind ≠ CallKind.endAccess := by
  intro c hc
  rcases hM with ⟨_, hl, _⟩ | ⟨_, _, hl, _⟩ | ⟨_, _, hl, _⟩ <;> rw [hl] at hc <;>
    simp at hc
  · subst hc
    simp [Call.kind]
  · rcases hc with rfl | rfl | rfl | rfl <;> simp [Call.kind]

/-! ## Recorder contents -/

theorem modifyEvent_append (st : List TimingRecord) (E l : List DelayEvent) (k : Nat)
    (e : DelayEvent) (f : DelayEvent → DelayEvent) (h : l.get? k = some e) :
    EventRecorder.modifyEvent { trStack := st, events := E ++ l } (E.length + k) f =
      { trStack := st, events := E ++ l.set k (f e) } := by
  have hget : (E ++ l).get? (E.length + k) = some e := by
    rw [List.get?_eq_getElem?, List.getElem?_append_right (Nat.le_add_right _ _),
      Nat.add_sub_cancel_left, ← List.get?_eq_getElem?, h]
  simp only [EventRecorder.modifyEvent, hget]
  rw [List.set_append_right _ _ (Nat.le_add_right _ _), Nat.add_sub_cancel_left]

theorem modifyEvent_at0 (st : List TimingRecord) (E : List DelayEvent) (a b c : DelayEvent)
    (f : DelayEvent → DelayEvent) :
    EventRecorder.modifyEvent { trStack := st, events := E ++ [a, b, c] } E.length f =
      { trStack := st, events := E ++ [f a, b, c] } :=
  modifyEvent_append st E [a, b, c] 0 a f rfl

theorem modifyEvent_at1 (st : List TimingRecord) (E : List DelayEvent) (a b c : DelayEvent)
    (f : DelayEvent → DelayEvent) :
    EventRecorder.modifyEvent { trStack := st, events := E ++ [a, b, c] } (E.length + 1) f =
      { trStack := st, events := E ++ [a, f b, c] } :=
  modifyEvent_append st E [a, b, c] 1 b f rfl

theorem modifyEvent_at2 (st : List TimingRecord) (E : List DelayEvent) (a b c : DelayEvent)
    (f : DelayEvent → DelayEvent) :
    EventRecorder.modifyEvent { trStack := st, events := E ++ [a, b, c] } (E.length + 2) f =
      { trStack := st, events := E ++ [a, b, f c] } :=
  modifyEvent_append st E [a, b, c] 2 c f rfl

/-- The recorder-level effect of lines 104–116. -/
theorem connect_recorder (req : MemReq) (wbAcc acc : TimingRecord) (m : Machine σ)
    (st : List TimingRecord) (E : List DelayEvent)
    (hr : m.sys.recorders req.srcId = { trStack := st, events := E }) :
    (connect req wbAcc acc m).sys.recorders req.srcId =
      { trStack := { acc with reqCycle := req.cycle, startEvent := some E.length } :: st,
        events := E ++
          [{ delay := 0, minStartCycle := req.cycle,
             children := [some (E.length + 1), some (E.length + 2)] },
           { delay := sub64 wbAcc.reqCycle req.cycle, minStartCycle := req.cycle,
             children := [wbAcc.startEvent] },
           { delay := sub64 acc.reqCycle req.cycle, minStartCycle := req.cycle,
             children := [acc.startEvent] }] } := by
  simp only [connect, Machine.pushRecord, Machine.addChild, Machine.setMinStartCycle,
    Machine.newDelayEvent, emit_sys, setRecorder_same, hr, EventRecorder.newDelayEvent,
    EventRecorder.setMinStartCycle, EventRecorder.addChildTo, EventRecorder.addChild,
    EventRecorder.pushRecord, List.append_assoc, List.singleton_append, List.length_append,
    List.length_singleton, List.length_cons, List.length_nil, Nat.zero_add,
    List.cons_append, List.nil_append, Nat.reduceAdd,
    modifyEvent_at0, modifyEvent_at1, modifyEvent_at2]


theorem stitch_invalid (req : MemReq) (wbAcc : TimingRecord) (m : Machine σ)
    (h : wbAcc.isValid = false) : stitch req wbAcc m = (none, m) := by
  simp [stitch, h]

theorem stitch_republish (req : MemReq) (wbAcc : TimingRecord) (m : Machine σ)
    (E : List DelayEvent) (h : wbAcc.isValid = true)
    (hr : m.sys.recorders req.srcId = { trStack := [], events := E }) :
    (stitch req wbAcc m).1 = none ∧
    (stitch req wbAcc m).2.sys.recorders req.srcId =
      { trStack := [{ wbAcc with endEvent := none }], events := E } ∧
    (stitch req wbAcc m).2.log = m.log ++
      [Call.hasRecord req.srcId, Call.pushRecord req.srcId { wbAcc with endEvent := none }] := by
  simp [stitch, h, Machine.hasRecord, Machine.pushRecord, hr, EventRecorder.hasRecord,
    EventRecorder.pushRecord]

theorem stitch_merge (req : MemReq) (wbAcc acc : TimingRecord) (m : Machine σ)
    (st : List TimingRecord) (E : List DelayEvent) (h : wbAcc.isValid = true)
    (hr : m.sys.recorders req.srcId = { trStack := acc :: st, events := E })
    (hw : req.cycle ≤ wbAcc.reqCycle) (ha : req.cycle ≤ acc.reqCycle) :
    stitch req wbAcc m =
      (none, connect req wbAcc acc
        (((m.emit (Call.hasRecord req.srcId)).setRecorder req.srcId
          { trStack := st, events := E }).emit (Call.popRecord req.srcId))) := by
  simp [stitch, h, Machine.hasRecord, Machine.popRecord, hr, EventRecorder.hasRecord,
    EventRecorder.popRecord, Nat.not_lt.mpr hw, Nat.not_lt.mpr ha]

theorem sub64_eq (a c : Nat) (ha : a < U64) (hc : c ≤ a) : sub64 a c = a - c := by
  have hc' : c < U64 := Nat.lt_of_le_of_lt hc ha
  unfold sub64
  rw [Nat.mod_eq_of_lt ha, Nat.mod_eq_of_lt hc']
  have : a + U64 - c = (a - c) + U64 := by omega
  rw [this, Nat.add_mod_right]
  exact Nat.mod_eq_of_lt (by omega)

theorem drain_pops (ch : Cache σ) (req : MemReq) (m : Machine σ) (A : TimingRecord)
    (st : List TimingRecord) (h : ch.hasRecorder req.srcId = true)
    (hr : (m.sys.recorders req.srcId).trStack = A :: st) :
    (drain ch req m).1 = A := by
  simp [drain, h, Machine.hasRecord, Machine.popRecord, EventRecorder.hasRecord,
    EventRecorder.popRecord, hr]

theorem front_wbAcc (ch : Cache σ) (req : MemReq) (s : Sys σ) (A : TimingRecord)
    (st : List TimingRecord) (h : ch.hasRecorder req.srcId = true)
    (hr : (recorderBeforeDrain ch req s).trStack = A :: st) :
    (front ch req s).wbAcc = A :=
  drain_pops ch (startReq ch req s) (afterMakeSpace ch req s).2 A st h hr


theorem recorder_eta (r : EventRecorder) (st : List TimingRecord) (h : r.trStack = st) :
    r = { trStack := st, events := r.events } := by
  cases r
  simp_all

/-! ## Claims on the timing records -/

/-- C4: when a valid writeback record `A` is the pending record before `processAccess`
and a main record `B` is the one pending after it, both with reference cycle at least
the request cycle `C`, no assertion of the stitching step fails and exactly one record
is left pending: it is `B` with reference cycle `C` and a new start node (so its end
node is `B`'s); the new start node has delay 0 and exactly two children, a new node of
delay `A.reqCycle - C` whose only child is `A`'s start node and a new node of delay
`B.reqCycle - C` whose only child is `B`'s start node; the two 64-bit subtractions do
not wrap; the three new nodes have minimum start cycle `C`. -/
theorem merge_correctness (ch : Cache σ) (req : MemReq) (s : Sys σ)
    (A B : TimingRecord) (rest : List TimingRecord)
    (h : skipAccess ch req s = false) (hrec : ch.hasRecorder req.srcId = true)
    (hA : (recorderBeforeDrain ch req s).trStack = A :: rest) (hAv : A.isValid = true)
    (hB : (recorderAfterMain ch req s).trStack = [B])
    (hAc : req.cycle ≤ A.reqCycle) (hBc : req.cycle ≤ B.reqCycle)
    (hA64 : A.reqCycle < U64) (hB64 : B.reqCycle < U64) :
    (access ch req s).sys.recorders req.srcId =
      { trStack := [{ B with reqCycle := req.cycle,
                             startEvent := some (recorderAfterMain ch req s).events.length }],
        events := (recorderAfterMain ch req s).events ++
          [{ delay := 0, minStartCycle := req.cycle,
             children := [some ((recorderAfterMain ch req s).events.length + 1),
                          some ((recorderAfterMain ch req s).events.length + 2)] },
           { delay := A.reqCycle - req.cycle, minStartCycle := req.cycle,
             children := [A.startEvent] },
           { delay := B.reqCycle - req.cycle, minStartCycle := req.cycle,
             children := [B.startEvent] }] } ∧
    sub64 A.reqCycle req.cycle = A.reqCycle - req.cycle ∧
    sub64 B.reqCycle req.cycle = B.reqCycle - req.cycle ∧
    (∀ flt, (access ch req s).result = Except.error flt → flt.inStitch = false) := by
  have hwb : (front ch req s).wbAcc = A := front_wbAcc ch req s A rest hrec hA
  have hr : (mainAccess ch (front ch req s)).2.sys.recorders (front ch req s).req.srcId =
      { trStack := B :: [], events := (recorderAfterMain ch req s).events } :=
    recorder_eta (recorderAfterMain ch req s) [B] hB
  have hst := stitch_merge (front ch req s).req A B (mainAccess ch (front ch req s)).2 []
    (recorderAfterMain ch req s).events hAv hr hAc hBc
  rw [← hwb] at hst
  have hs1 : (stitch (front ch req s).req (front ch req s).wbAcc
      (mainAccess ch (front ch req s)).2).1 = none := by rw [hst]
  have hsA := sub64_eq A.reqCycle req.cycle hA64 hAc
  have hsB := sub64_eq B.reqCycle req.cycle hB64 hBc
  refine ⟨?_, hsA, hsB, ?_⟩
  · rw [access_run ch req s h hs1, finish_recorders, hst]
    have hc := connect_recorder (front ch req s).req (front ch req s).wbAcc B
      ((((mainAccess ch (front ch req s)).2.emit
        (Call.hasRecord (front ch req s).req.srcId)).setRecorder (front ch req s).req.srcId
          { trStack := [], events := (recorderAfterMain ch req s).events }).emit
        (Call.popRecord (front ch req s).req.srcId))
      [] (recorderAfterMain ch req s).events (by simp)
    rw [hwb] at hc
    rw [hwb]
    have e1 : (front ch req s).req.cycle = req.cycle := rfl
    rw [e1, hsA, hsB] at hc
    exact hc
  · intro flt hf
    rw [access_run ch req s h hs1] at hf
    unfold finish at hf
    split_ifs at hf
    · injection hf with hf
      subst hf
      rfl

/-- C4, on the scenario of the specification: request cycle 1000, writeback record with
reference cycle 1010, main record with reference cycle 1020: the merged record has
reference cycle 1000 and the two branches have delays 10 and 20. -/
theorem merge_correctness_witness :
    (access (scriptedCache missBothRecords) reqX idleSys).result = Except.ok 1020 ∧
    (access (scriptedCache missBothRecords) reqX idleSys).sys.recorders 0 =
      { trStack := [{ addr := 64, reqCycle := 1000, respCycle := 1030,
                      type := AccessType.GETX, startEvent := some 2, endEvent := some 1 }],
        events :=
          [{ delay := 4, minStartCycle := 0, children := [] },
           { delay := 6, minStartCycle := 0, children := [] },
           { delay := 0, minStartCycle := 1000, children := [some 3, some 4] },
           { delay := 10, minStartCycle := 1000, children := [some 0] },
           { delay := 20, minStartCycle := 1000, children := [some 1] }] } :=
  ⟨rfl, (merge_correctness (scriptedCache missBothRecords) reqX idleSys wbRec accRec []
    rfl rfl rfl rfl rfl (by decide) (by decide) (by decide) (by decide)).1⟩


/-- C10: when a valid writeback record `A` is the pending record before `processAccess`
and no record is pending after it, exactly one record is left pending on return: `A`
with its end node set to null and every other field unchanged; the arena of nodes is as
`processAccess` left it and no delay node is allocated. -/
theorem writeback_only_republish (ch : Cache σ) (req : MemReq) (s : Sys σ)
    (A : TimingRecord) (rest : List TimingRecord)
    (h : skipAccess ch req s = false) (hrec : ch.hasRecorder req.srcId = true)
    (hA : (recorderBeforeDrain ch req s).trStack = A :: rest) (hAv : A.isValid = true)
    (hB : (recorderAfterMain ch req s).trStack = []) :
    (access ch req s).sys.recorders req.srcId =
      { trStack := [{ A with endEvent := none }],
        events := (recorderAfterMain ch req s).events } ∧
    callsOf CallKind.newDelayEvent (access ch req s).log = [] ∧
    callsOf CallKind.pushRecord (access ch req s).log =
      [Call.pushRecord req.srcId { A with endEvent := none }] := by
  have hwb : (front ch req s).wbAcc = A := front_wbAcc ch req s A rest hrec hA
  have hr : (mainAccess ch (front ch req s)).2.sys.recorders (front ch req s).req.srcId =
      { trStack := [], events := (recorderAfterMain ch req s).events } :=
    recorder_eta (recorderAfterMain ch req s) [] hB
  obtain ⟨hs1, hs2, hs3⟩ := stitch_republish (front ch req s).req A
    (mainAccess ch (front ch req s)).2 (recorderAfterMain ch req s).events hAv hr
  rw [← hwb] at hs1 hs2 hs3
  obtain ⟨lM, lR, hfl, hM, hlR⟩ := front_log ch req s
  have hlog : (access ch req s).log = ([Call.startAccess req,
         Call.lookup req.lineAddr (some (startReq ch req s))
           (updateReplacement (startReq ch req s))] ++ lM ++ lR) ++
      [Call.processAccess (startReq ch req s) (front ch req s).lineId
        (add64 req.cycle ch.accLat)] ++
      [Call.hasRecord req.srcId,
        Call.pushRecord req.srcId { (front ch req s).wbAcc with endEvent := none }] ++
      [Call.endAccess (startReq ch req s)] := by
    rw [access_run ch req s h hs1, finish_log, hs3, ← hfl]
    rfl
  have hlM1 : callsOf CallKind.newDelayEvent lM = [] := by
    rcases hM with ⟨_, hl, _⟩ | ⟨_, _, hl, _⟩ | ⟨_, _, hl, _⟩ <;> rw [hl] <;> rfl
  have hlM2 : callsOf CallKind.pushRecord lM = [] := by
    rcases hM with ⟨_, hl, _⟩ | ⟨_, _, hl, _⟩ | ⟨_, _, hl, _⟩ <;> rw [hl] <;> rfl
  have hlR1 : callsOf CallKind.newDelayEvent lR = [] := by
    unfold callsOf
    rw [List.filter_eq_nil_iff]
    intro c hc
    rcases hlR c hc with hk | hk <;> rw [hk] <;> decide
  have hlR2 : callsOf CallKind.pushRecord lR = [] := by
    unfold callsOf
    rw [List.filter_eq_nil_iff]
    intro c hc
    rcases hlR c hc with hk | hk <;> rw [hk] <;> decide
  refine ⟨?_, ?_, ?_⟩
  · rw [access_run ch req s h hs1, finish_recorders]
    rw [hwb] at hs2 ⊢
    exact hs2
  · rw [hlog]
    simp only [callsOf_append, hlM1, hlR1]
    rfl
  · rw [hlog]
    simp only [callsOf_append, hlM2, hlR2, hwb]
    rfl

/-- C10, on the scripted scenario of a miss with eviction where only the writeback has a
record: the writeback record is republished without its end node and the arena keeps
its two nodes. -/
theorem writeback_only_republish_witness :
    (access (scriptedCache missWbOnly) reqX idleSys).result = Except.ok 1020 ∧
    (access (scriptedCache missWbOnly) reqX idleSys).sys.recorders 0 =
      { trStack := [{ addr := 128, reqCycle := 1010, respCycle := 1015,
                      type := AccessType.PUTX, startEvent := some 0, endEvent := none }],
        events := idleRecorder.events } :=
  ⟨rfl, (writeback_only_republish (scriptedCache missWbOnly) reqX idleSys wbRec []
    rfl rfl rfl rfl rfl).1⟩


theorem stitch_abort_stack (req : MemReq) (wbAcc acc : TimingRecord) (m : Machine σ)
    (st : List TimingRecord) (h : wbAcc.isValid = true)
    (hr : (m.sys.recorders req.srcId).trStack = acc :: st)
    (hc : wbAcc.reqCycle < req.cycle ∨ acc.reqCycle < req.cycle) :
    ((stitch req wbAcc m).2.sys.recorders req.srcId).trStack = st ∧
    (stitch req wbAcc m).1 ≠ none := by
  by_cases hw : wbAcc.reqCycle < req.cycle
  · simp [stitch, h, Machine.hasRecord, Machine.popRecord, hr, EventRecorder.hasRecord,
      EventRecorder.popRecord, hw]
  · have ha : acc.reqCycle < req.cycle := hc.resolve_left hw
    simp [stitch, h, Machine.hasRecord, Machine.popRecord, hr, EventRecorder.hasRecord,
      EventRecorder.popRecord, hw, ha]

/-- Pending records of the origin after the stitching step. -/
theorem stitch_stack (req : MemReq) (wbAcc : TimingRecord) (m : Machine σ) :
    (((m.sys.recorders req.srcId).trStack.length ≤ 1 →
      ((stitch req wbAcc m).2.sys.recorders req.srcId).trStack.length ≤ 1)) ∧
    ((stitch req wbAcc m).1 = none →
      (((stitch req wbAcc m).2.sys.recorders req.srcId).trStack = [] ↔
        (wbAcc.isValid = false ∧ (m.sys.recorders req.srcId).trStack = []))) := by
  by_cases hv : wbAcc.isValid = true
  · cases hT : (m.sys.recorders req.srcId).trStack with
    | nil =>
      obtain ⟨_, h2, _⟩ := stitch_republish req wbAcc m (m.sys.recorders req.srcId).events hv
        (recorder_eta _ [] hT)
      rw [h2]
      simp [hv]
    | cons acc st =>
      by_cases hc : wbAcc.reqCycle < req.cycle ∨ acc.reqCycle < req.cycle
      · obtain ⟨h1, h2⟩ := stitch_abort_stack req wbAcc acc m st hv hT hc
        rw [h1]
        refine ⟨fun hl => ?_, fun hn => absurd hn h2⟩
        simp only [List.length_cons] at hl
        omega
      · have hw : req.cycle ≤ wbAcc.reqCycle := by omega
        have ha : req.cycle ≤ acc.reqCycle := by omega
        rw [stitch_merge req wbAcc acc m st (m.sys.recorders req.srcId).events hv
          (recorder_eta _ (acc :: st) hT) hw ha]
        rw [connect_recorder req wbAcc acc _ st (m.sys.recorders req.srcId).events (by simp)]
        simp [hv]
  · have hv' : wbAcc.isValid = false := by simpa using hv
    rw [stitch_invalid req wbAcc m hv']
    simp [hv']

/-- C3 (amended): the record published by the main processing, the merged record or the
republished writeback record stays pending on return.  After a non-skipped access the
origin's recorder holds at most one pending record whenever `processAccess` left at most
one pending, and when the access returns it holds none exactly when no valid writeback
record was captured and `processAccess` left none; a skipped access leaves the
recorders as they were. -/
theorem single_record_on_return (ch : Cache σ) (req : MemReq) (s : Sys σ) :
    (skipAccess ch req s = true → (access ch req s).sys.recorders = s.recorders) ∧
    (skipAccess ch req s = false → (recorderAfterMain ch req s).trStack.length ≤ 1 →
      ((access ch req s).sys.recorders req.srcId).trStack.length ≤ 1) ∧
    (skipAccess ch req s = false → ∀ r, (access ch req s).result = Except.ok r →
      (((access ch req s).sys.recorders req.srcId).trStack = [] ↔
        ((front ch req s).wbAcc.isValid = false ∧
          (recorderAfterMain ch req s).trStack = []))) := by
  have hst := stitch_stack (front ch req s).req (front ch req s).wbAcc
    (mainAccess ch (front ch req s)).2
  refine ⟨fun h => ?_, fun h hT => ?_, fun h r hr => ?_⟩
  · rw [access_skip ch req s h]
    rfl
  · cases hs : (stitch (front ch req s).req (front ch req s).wbAcc
        (mainAccess ch (front ch req s)).2).1 with
    | some flt =>
      rw [access_fault ch req s flt h hs]
      exact hst.1 hT
    | none =>
      rw [access_run ch req s h hs, finish_recorders]
      exact hst.1 hT
  · cases hs : (stitch (front ch req s).req (front ch req s).wbAcc
        (mainAccess ch (front ch req s)).2).1 with
    | some flt =>
      rw [access_fault ch req s flt h hs] at hr
      simp at hr
    | none =>
      rw [access_run ch req s h hs, finish_recorders]
      exact hst.2 hs

/-- C3, witness of the amended claim: on a hit whose main processing publishes a record,
`processAccess` leaves one record pending and one record is pending on return. -/
theorem single_record_on_return_witness :
    skipAccess (scriptedCache hitWithRecord) reqX idleSys = false ∧
    (recorderAfterMain (scriptedCache hitWithRecord) reqX idleSys).trStack.length ≤ 1 ∧
    ((access (scriptedCache hitWithRecord) reqX idleSys).sys.recorders
      reqX.srcId).trStack.length ≤ 1 :=
  ⟨rfl, by decide,
   (single_record_on_return (scriptedCache hitWithRecord) reqX idleSys).2.1 rfl
     (by decide)⟩

/-- C3, counterexample to "zero pending records after any access": a hit at slot 3 whose
main processing publishes a timing record returns 1020 and leaves that record pending
in the origin's recorder. -/
theorem single_record_zero_counterexample :
    (access (scriptedCache hitWithRecord) reqX idleSys).result = Except.ok 1020 ∧
    ((access (scriptedCache hitWithRecord) reqX idleSys).sys.recorders
      reqX.srcId).trStack = [accRec] ∧
    ¬ (((access (scriptedCache hitWithRecord) reqX idleSys).sys.recorders
      reqX.srcId).trStack.length = 0) :=
  ⟨rfl, rfl, by decide⟩

/-! ## Claims on `finishInvalidate` -/

/-- C5: `finishInvalidate` fails fatally exactly when the lookup of the line reports it
as not present (`-1`); in that case the log holds the lookup alone and `processInv` is
never called. -/
theorem finishInvalidate_fatal_iff_absent (ch : Cache σ) (req : InvReq) (s : Sys σ) :
    ((∃ flt, (finishInvalidate ch req s).1 = Except.error flt) ↔
      (ch.array.lookup req.lineAddr none false s.cs).1 = -1) ∧
    ((ch.array.lookup req.lineAddr none false s.cs).1 = -1 →
      (finishInvalidate ch req s).1 = Except.error Fault.missingLine ∧
      (finishInvalidate ch req s).2.log = [Call.lookup req.lineAddr none false] ∧
      callsOf CallKind.processInv (finishInvalidate ch req s).2.log = []) := by
  by_cases h : (ch.array.lookup req.lineAddr none false s.cs).1 = -1
  · simp [finishInvalidate, h, callsOf, Call.kind]
  · simp [finishInvalidate, h]

/-- C5, on the scripted scenarios: the invalidation of an absent line fails, the
invalidation of a present line returns. -/
theorem finishInvalidate_fatal_iff_absent_witness :
    (finishInvalidate (scriptedCache invAbsent) invReq idleSys).1 =
      Except.error Fault.missingLine ∧
    callsOf CallKind.processInv
      (finishInvalidate (scriptedCache invAbsent) invReq idleSys).2.log = [] ∧
    (finishInvalidate (scriptedCache invPresent) invReq idleSys).1 = Except.ok 1009 :=
  ⟨((finishInvalidate_fatal_iff_absent (scriptedCache invAbsent) invReq idleSys).2 rfl).1,
   ((finishInvalidate_fatal_iff_absent (scriptedCache invAbsent) invReq
      idleSys).2 rfl).2.2, rfl⟩

/-- The log of a non-skipped access, seen through a filter that drops the calls on the
event recorder. -/
theorem access_log_filter (ch : Cache σ) (req : MemReq) (s : Sys σ) (p : Call → Bool)
    (hp : ∀ c, c.kind.onRecorder = true → p c = false)
    (h : skipAccess ch req s = false) :
    ∃ lM lE, (access ch req s).log.filter p =
        ([Call.startAccess req,
          Call.lookup req.lineAddr (some (startReq ch req s))
            (updateReplacement (startReq ch req s))] ++ lM ++
         [Call.processAccess (startReq ch req s) (front ch req s).lineId
            (add64 req.cycle ch.accLat)] ++ lE).filter p ∧
      MakeSpaceCalls ch req s lM (front ch req s).lineId ∧
      (lE = [Call.endAccess (startReq ch req s)] ∨ lE = []) := by
  obtain ⟨lM, lR1, lR2, lE, hlog, hM, h0, h2, hE⟩ := access_log_shape ch req s h
  have h1 := fun c hc => drainKind_onRecorder c (h0 c hc)
  refine ⟨lM, lE, ?_, hM, ?_⟩
  · rw [hlog]
    simp only [List.filter_append, filter_recorder p lR1 hp h1, filter_recorder p lR2 hp h2,
      List.append_nil]
  · rcases hE with ⟨hl, _⟩ | ⟨hl, _⟩
    · exact Or.inl hl
    · exact Or.inr hl

theorem callsOf_filter (k : CallKind) (l : List Call) :
    callsOf k l = l.filter (fun c => decide (c.kind = k)) := rfl

theorem kind_filter_recorder (k : CallKind) (hk : k.onRecorder = false) :
    ∀ c : Call, c.kind.onRecorder = true → decide (c.kind = k) = false := by
  intro c hc
  simp only [decide_eq_false_iff_not]
  intro hck
  rw [hck, hk] at hc
  exact Bool.noConfusion hc

theorem evictStep_filter_recorder :
    ∀ c : Call, c.kind.onRecorder = true → c.kind.evictStep = false := by
  intro c hc
  cases hk : c.kind <;> rw [hk] at hc <;> first | rfl | exact Bool.noConfusion hc

/-- C11: in a non-skipped access, `shouldAllocate` is consulted only when the lookup
missed.  On a hit `processAccess` receives the slot id returned by the lookup and none of
`preinsert`, `processEviction`, `postinsert` is called; on a miss with `shouldAllocate`
true it receives the slot id returned by `preinsert`; on a miss with `shouldAllocate`
false it receives `-1` and none of the three is called. -/
theorem slot_id_handed_on (ch : Cache σ) (req : MemReq) (s : Sys σ)
    (h : skipAccess ch req s = false) :
    (callsOf CallKind.shouldAllocate (access ch req s).log ≠ [] →
      (lookupResult ch req s).1 = -1) ∧
    ((lookupResult ch req s).1 ≠ -1 →
      callsOf CallKind.processAccess (access ch req s).log =
        [Call.processAccess (startReq ch req s) (lookupResult ch req s).1
          (add64 req.cycle ch.accLat)] ∧
      (access ch req s).log.filter (fun c => c.kind.evictStep) = [] ∧
      callsOf CallKind.shouldAllocate (access ch req s).log = []) ∧
    ((lookupResult ch req s).1 = -1 → (allocDecision ch req s).1 = true →
      callsOf CallKind.processAccess (access ch req s).log =
        [Call.processAccess (startReq ch req s) (victim ch req s).1
          (add64 req.cycle ch.accLat)] ∧
      callsOf CallKind.shouldAllocate (access ch req s).log =
        [Call.shouldAllocate (startReq ch req s)]) ∧
    ((lookupResult ch req s).1 = -1 → (allocDecision ch req s).1 = false →
      callsOf CallKind.processAccess (access ch req s).log =
        [Call.processAccess (startReq ch req s) (-1) (add64 req.cycle ch.accLat)] ∧
      (access ch req s).log.filter (fun c => c.kind.evictStep) = [] ∧
      callsOf CallKind.shouldAllocate (access ch req s).log =
        [Call.shouldAllocate (startReq ch req s)]) := by
  obtain ⟨lA, eA, hA, hMA, hEA⟩ := access_log_filter ch req s
    (fun c => decide (c.kind = CallKind.processAccess))
    (kind_filter_recorder CallKind.processAccess rfl) h
  obtain ⟨lS, eS, hS, hMS, hES⟩ := access_log_filter ch req s
    (fun c => decide (c.kind = CallKind.shouldAllocate))
    (kind_filter_recorder CallKind.shouldAllocate rfl) h
  obtain ⟨lV, eV, hV, hMV, hEV⟩ := access_log_filter ch req s
    (fun c => c.kind.evictStep) evictStep_filter_recorder h
  simp only [callsOf_filter]
  rw [hA, hS, hV]
  refine ⟨?_, ?_, ?_, ?_⟩
  · intro hne
    by_contra hhit
    apply hne
    rcases hMS with ⟨_, hl, _⟩ | ⟨hm, _⟩ | ⟨hm, _⟩
    · rw [hl]
      rcases hES with hl | hl <;> rw [hl] <;> rfl
    · exact absurd hm hhit
    · exact absurd hm hhit
  · intro hhit
    refine ⟨?_, ?_, ?_⟩
    · rcases hMA with ⟨_, hl, hid⟩ | ⟨hm, _⟩ | ⟨hm, _⟩
      · rw [hl, hid]
        rcases hEA with hl | hl <;> rw [hl] <;> rfl
      · exact absurd hm hhit
      · exact absurd hm hhit
    · rcases hMV with ⟨_, hl, _⟩ | ⟨hm, _⟩ | ⟨hm, _⟩
      · rw [hl]
        rcases hEV with hl | hl <;> rw [hl] <;> rfl
      · exact absurd hm hhit
      · exact absurd hm hhit
    · rcases hMS with ⟨_, hl, _⟩ | ⟨hm, _⟩ | ⟨hm, _⟩
      · rw [hl]
        rcases hES with hl | hl <;> rw [hl] <;> rfl
      · exact absurd hm hhit
      · exact absurd hm hhit
  · intro hmiss halloc
    refine ⟨?_, ?_⟩
    · rcases hMA with ⟨hne, _⟩ | ⟨_, hf, _⟩ | ⟨_, _, hl, hid⟩
      · exact absurd hmiss hne
      · rw [hf] at halloc
        exact Bool.noConfusion halloc
      · rw [hl, hid]
        rcases hEA with hl | hl <;> rw [hl] <;> rfl
    · rcases hMS with ⟨hne, _⟩ | ⟨_, hf, _⟩ | ⟨_, _, hl, _⟩
      · exact absurd hmiss hne
      · rw [hf] at halloc
        exact Bool.noConfusion halloc
      · rw [hl]
        rcases hES with hl | hl <;> rw [hl] <;> rfl
  · intro hmiss halloc
    refine ⟨?_, ?_, ?_⟩
    · rcases hMA with ⟨hne, _⟩ | ⟨_, _, hl, hid⟩ | ⟨_, ht, _⟩
      · exact absurd hmiss hne
      · rw [hl, hid]
        rcases hEA with hl | hl <;> rw [hl] <;> rfl
      · rw [ht] at halloc
        exact Bool.noConfusion halloc
    · rcases hMV with ⟨hne, _⟩ | ⟨_, _, hl, _⟩ | ⟨_, ht, _⟩
      · exact absurd hmiss hne
      · rw [hl]
        rcases hEV with hl | hl <;> rw [hl] <;> rfl
      · rw [ht] at halloc
        exact Bool.noConfusion halloc
    · rcases hMS with ⟨hne, _⟩ | ⟨_, _, hl, _⟩ | ⟨_, ht, _⟩
      · exact absurd hmiss hne
      · rw [hl]
        rcases hES with hl | hl <;> rw [hl] <;> rfl
      · rw [ht] at halloc
        exact Bool.noConfusion halloc

/-- C11, on the scripted scenarios: a hit at slot 3 hands on 3, an allocating miss hands
on the victim slot 7, a miss that does not allocate hands on `-1`. -/
theorem slot_id_handed_on_witness :
    callsOf CallKind.processAccess (access (scriptedCache hitWithRecord) reqX idleSys).log =
      [Call.processAccess reqX 3 1005] ∧
    callsOf CallKind.processAccess
        (access (scriptedCache missBothRecords) reqX idleSys).log =
      [Call.processAccess reqX 7 1005] ∧
    callsOf CallKind.processAccess (access (scriptedCache missNoEvict) reqX idleSys).log =
      [Call.processAccess reqX (-1) 1005] :=
  ⟨((slot_id_handed_on (scriptedCache hitWithRecord) reqX idleSys rfl).2.1
      (by decide)).1,
   ((slot_id_handed_on (scriptedCache missBothRecords) reqX idleSys rfl).2.2.1
      rfl rfl).1,
   ((slot_id_handed_on (scriptedCache missNoEvict) reqX idleSys rfl).2.2.2
      rfl rfl).1⟩


theorem drain_no_recorder (ch : Cache σ) (req : MemReq) (m : Machine σ)
    (h : ch.hasRecorder req.srcId = false) :
    drain ch req m = (TimingRecord.uninit.clear, m) := by
  simp [drain, h]

theorem drain_empty (ch : Cache σ) (req : MemReq) (m : Machine σ)
    (h : ch.hasRecorder req.srcId = true)
    (hr : (m.sys.recorders req.srcId).trStack = []) :
    (drain ch req m).1 = TimingRecord.uninit.clear ∧
    (drain ch req m).2.sys.recorders = m.sys.recorders := by
  simp [drain, h, Machine.hasRecord, EventRecorder.hasRecord, hr]

theorem drain_recorder (ch : Cache σ) (req : MemReq) (m : Machine σ)
    (h : ch.hasRecorder req.srcId = true) :
    (drain ch req m).2.sys.recorders req.srcId =
      { trStack := (m.sys.recorders req.srcId).trStack.tail,
        events := (m.sys.recorders req.srcId).events } := by
  cases hr : (m.sys.recorders req.srcId).trStack with
  | nil =>
    rw [(drain_empty ch req m h hr).2]
    exact recorder_eta _ _ hr
  | cons A st =>
    simp [drain, h, Machine.hasRecord, Machine.popRecord, EventRecorder.hasRecord,
      EventRecorder.popRecord, hr]

/-- The captured record is invalid when the origin has no recorder or no valid record is
on top of its pending records. -/
theorem front_wbAcc_invalid (ch : Cache σ) (req : MemReq) (s : Sys σ)
    (hno : ch.hasRecorder req.srcId = false ∨
      ∀ A rest, (recorderBeforeDrain ch req s).trStack = A :: rest → A.isValid = false) :
    (front ch req s).wbAcc.isValid = false := by
  show (drain ch (startReq ch req s) (afterMakeSpace ch req s).2).1.isValid = false
  by_cases hrec : ch.hasRecorder req.srcId = true
  · have hno' := hno.resolve_left (by simp [hrec])
    cases hr : (recorderBeforeDrain ch req s).trStack with
    | nil =>
      rw [(drain_empty ch (startReq ch req s) (afterMakeSpace ch req s).2 hrec hr).1]
      rfl
    | cons A st =>
      rw [drain_pops ch (startReq ch req s) (afterMakeSpace ch req s).2 A st hrec hr]
      exact hno' A st hr
  · have hrec' : ch.hasRecorder (startReq ch req s).srcId = false := by simpa using hrec
    rw [drain_no_recorder ch (startReq ch req s) _ hrec']
    rfl

/-- C16: in a non-skipped access where the origin has no event recorder, or no valid
record is on top of its pending records before `processAccess`, the only call made after
`processAccess` returns is `endAccess` (no push, pop or node allocation on the recorder),
no assertion of the stitching step fails, and the recorders on return are exactly as
`processAccess` left them. -/
theorem recorder_untouched_without_writeback (ch : Cache σ) (req : MemReq) (s : Sys σ)
    (h : skipAccess ch req s = false)
    (hno : ch.hasRecorder req.srcId = false ∨
      ∀ A rest, (recorderBeforeDrain ch req s).trStack = A :: rest → A.isValid = false) :
    (access ch req s).sys.recorders = (mainAccess ch (front ch req s)).2.sys.recorders ∧
    (access ch req s).sys.recorders req.srcId = recorderAfterMain ch req s ∧
    (access ch req s).log = (front ch req s).m.log ++
      [Call.processAccess (startReq ch req s) (front ch req s).lineId
         (add64 req.cycle ch.accLat),
       Call.endAccess (startReq ch req s)] ∧
    (∀ flt, (access ch req s).result = Except.error flt → flt.inStitch = false) := by
  have hinv := front_wbAcc_invalid ch req s hno
  have hst := stitch_invalid (front ch req s).req (front ch req s).wbAcc
    (mainAccess ch (front ch req s)).2 hinv
  have hs1 : (stitch (front ch req s).req (front ch req s).wbAcc
      (mainAccess ch (front ch req s)).2).1 = none := by rw [hst]
  rw [access_run ch req s h hs1, hst]
  refine ⟨rfl, rfl, ?_, ?_⟩
  · rw [finish_log]
    show (front ch req s).m.log ++ [_] ++ [_] = _
    rw [List.append_assoc]
    rfl
  · intro flt hf
    unfold finish at hf
    split_ifs at hf
    · injection hf with hf
      subst hf
      rfl

/-- C16, on the scripted scenario of a hit whose main processing publishes a record:
nothing was pending before, and the record left by `processAccess` is what is pending on
return. -/
theorem recorder_untouched_without_writeback_witness :
    (access (scriptedCache hitWithRecord) reqX idleSys).sys.recorders reqX.srcId =
      recorderAfterMain (scriptedCache hitWithRecord) reqX idleSys ∧
    (recorderAfterMain (scriptedCache hitWithRecord) reqX idleSys).trStack = [accRec] :=
  ⟨(recorder_untouched_without_writeback (scriptedCache hitWithRecord) reqX idleSys rfl
      (Or.inr (fun _ _ hA => List.noConfusion
        ((rfl : (recorderBeforeDrain (scriptedCache hitWithRecord) reqX idleSys).trStack
          = []).symm.trans hA)))).2.1, rfl⟩


/-- C12: in a non-skipped access whose origin has an event recorder holding at most one
pending record after the eviction step, the recorder holds no pending record at the
moment `processAccess` is called; the record that was pending is the one captured, and,
being a valid record, it is the one republished (alone, without its end node) or merged
(its start node under the writeback branch of the new start node) whenever the access is
not aborted by an assertion of the stitching step. -/
theorem drain_before_main (ch : Cache σ) (req : MemReq) (s : Sys σ)
    (h : skipAccess ch req s = false) (hrec : ch.hasRecorder req.srcId = true)
    (hlen : (recorderBeforeDrain ch req s).trStack.length ≤ 1) :
    (recorderAtMain ch req s).trStack = [] ∧
    (recorderAtMain ch req s).events = (recorderBeforeDrain ch req s).events ∧
    (∀ A, (recorderBeforeDrain ch req s).trStack = [A] →
      (front ch req s).wbAcc = A ∧
      (A.isValid = true →
        (∀ flt, (access ch req s).result = Except.error flt → flt.inStitch = false) →
        ((recorderAfterMain ch req s).trStack = [] ∧
          (access ch req s).sys.recorders req.srcId =
            { trStack := [{ A with endEvent := none }],
              events := (recorderAfterMain ch req s).events }) ∨
        (∃ B rest, (recorderAfterMain ch req s).trStack = B :: rest ∧
          req.cycle ≤ A.reqCycle ∧ req.cycle ≤ B.reqCycle ∧
          (access ch req s).sys.recorders req.srcId =
            { trStack :=
                { B with reqCycle := req.cycle,
                         startEvent := some (recorderAfterMain ch req s).events.length }
                  :: rest,
              events := (recorderAfterMain ch req s).events ++
                [{ delay := 0, minStartCycle := req.cycle,
                   children := [some ((recorderAfterMain ch req s).events.length + 1),
                                some ((recorderAfterMain ch req s).events.length + 2)] },
                 { delay := sub64 A.reqCycle req.cycle, minStartCycle := req.cycle,
                   children := [A.startEvent] },
                 { delay := sub64 B.reqCycle req.cycle, minStartCycle := req.cycle,
                   children := [B.startEvent] }] }))) := by
  have hd : recorderAtMain ch req s =
      { trStack := (recorderBeforeDrain ch req s).trStack.tail,
        events := (recorderBeforeDrain ch req s).events } :=
    drain_recorder ch (startReq ch req s) (afterMakeSpace ch req s).2 hrec
  refine ⟨?_, ?_, ?_⟩
  · rw [hd]
    show (recorderBeforeDrain ch req s).trStack.tail = []
    cases hr : (recorderBeforeDrain ch req s).trStack with
    | nil => rfl
    | cons A st =>
      rw [hr] at hlen
      cases st with
      | nil => rfl
      | cons B st2 => simp at hlen
  · rw [hd]
  · intro A hA
    have hwb : (front ch req s).wbAcc = A := front_wbAcc ch req s A [] hrec hA
    refine ⟨hwb, fun hAv hret => ?_⟩
    cases hT : (recorderAfterMain ch req s).trStack with
    | nil =>
      left
      obtain ⟨hs1, hs2, _⟩ := stitch_republish (front ch req s).req A
        (mainAccess ch (front ch req s)).2 (recorderAfterMain ch req s).events hAv
        (recorder_eta (recorderAfterMain ch req s) [] hT)
      rw [← hwb] at hs1
      refine ⟨rfl, ?_⟩
      rw [access_run ch req s h hs1, finish_recorders, hwb]
      exact hs2
    | cons B rest =>
      right
      by_cases hc : A.reqCycle < req.cycle ∨ B.reqCycle < req.cycle
      · exfalso
        obtain ⟨_, hne⟩ := stitch_abort_stack (front ch req s).req A B
          (mainAccess ch (front ch req s)).2 rest hAv hT hc
        rw [← hwb] at hne
        cases hs : (stitch (front ch req s).req (front ch req s).wbAcc
            (mainAccess ch (front ch req s)).2).1 with
        | none => exact hne hs
        | some flt =>
          have hin := stitch_fault _ _ _ flt hs
          have hres : (access ch req s).result = Except.error flt := by
            rw [access_fault ch req s flt h hs]
          rw [hret flt hres] at hin
          exact Bool.noConfusion hin
      · have hAc : req.cycle ≤ A.reqCycle := by omega
        have hBc : req.cycle ≤ B.reqCycle := by omega
        have hst := stitch_merge (front ch req s).req A B (mainAccess ch (front ch req s)).2
          rest (recorderAfterMain ch req s).events hAv
          (recorder_eta (recorderAfterMain ch req s) (B :: rest) hT) hAc hBc
        rw [← hwb] at hst
        have hs1 : (stitch (front ch req s).req (front ch req s).wbAcc
            (mainAccess ch (front ch req s)).2).1 = none := by rw [hst]
        refine ⟨B, rest, rfl, hAc, hBc, ?_⟩
        rw [access_run ch req s h hs1, finish_recorders, hst, hwb]
        exact connect_recorder (front ch req s).req A B
          ((((mainAccess ch (front ch req s)).2.emit
            (Call.hasRecord (front ch req s).req.srcId)).setRecorder
              (front ch req s).req.srcId
              { trStack := rest, events := (recorderAfterMain ch req s).events }).emit
            (Call.popRecord (front ch req s).req.srcId))
          rest (recorderAfterMain ch req s).events (by simp)

/-- C12, on the scripted scenario of a miss with eviction where only the writeback has a
record: one record is pending after the eviction step, none when `processAccess` is
called, and the captured record is the one republished. -/
theorem drain_before_main_witness :
    (recorderBeforeDrain (scriptedCache missWbOnly) reqX idleSys).trStack = [wbRec] ∧
    (recorderAtMain (scriptedCache missWbOnly) reqX idleSys).trStack = [] ∧
    (front (scriptedCache missWbOnly) reqX idleSys).wbAcc = wbRec ∧
    ((access (scriptedCache missWbOnly) reqX idleSys).sys.recorders reqX.srcId).trStack =
      [{ wbRec with endEvent := none }] :=
  ⟨rfl,
   (drain_before_main (scriptedCache missWbOnly) reqX idleSys rfl rfl (by decide)).1,
   ((drain_before_main (scriptedCache missWbOnly) reqX idleSys rfl rfl
      (by decide)).2.2 wbRec rfl).1,
   rfl⟩


/-! ## Claims on the tracing sink -/

theorem getD_zero_of_nul_free (sub : List Nat) (h0 : ∀ c ∈ sub, c ≠ 0) (j : Nat)
    (hj : sub.getD j 0 = 0) : sub.length ≤ j := by
  by_contra hlt
  have hlt' : j < sub.length := Nat.lt_of_not_le hlt
  rw [List.getD_eq_getElem _ _ hlt'] at hj
  exact h0 _ (List.getElem_mem _) hj

theorem take_succ_of_getD (sub : List Nat) (j c : Nat) (hj : j < sub.length)
    (hc : c = sub.getD j 0) : sub.take (j + 1) = sub.take j ++ [c] := by
  rw [List.getD_eq_getElem _ _ hj] at hc
  rw [List.take_succ, List.getElem?_eq_getElem hj, hc]
  rfl

/-- Invariant of the loop of `findSubstring`: with `pre` the characters read so far and
the `j` matched characters of `substring` a suffix of `pre`, a `true` return at scan
position `p` means that `substring` is non-empty and ends an occurrence at `p`. -/
theorem findSubstringLoop_sound (sub : List Nat) (h0 : ∀ c ∈ sub, c ≠ 0) :
    ∀ (rest pre : List Nat) (i j p : Nat), pre.length = i → j ≤ sub.length →
      sub.take j <:+ pre → findSubstringLoop sub rest i j = some p →
      sub ≠ [] ∧ i ≤ p ∧ p < i + rest.length ∧ sub <:+ (pre ++ rest).take (p + 1) := by
  intro rest
  induction rest with
  | nil =>
    intro pre i j p _ _ _ hres
    simp [findSubstringLoop] at hres
  | cons c cs ih =>
    intro pre i j p hi hj hsuf hres
    unfold findSubstringLoop at hres
    by_cases hc0 : c = 0
    · simp [hc0] at hres
    · simp only [hc0, if_false] at hres
      have happ : pre ++ c :: cs = (pre ++ [c]) ++ cs := by simp
      have hlen : (pre ++ [c]).length = i + 1 := by simp [hi]
      by_cases hm : c = sub.getD j 0
      · have hjlt : j < sub.length := by
          by_contra hge
          have : sub.getD j 0 = 0 := List.getD_eq_default _ _ (Nat.le_of_not_lt hge)
          exact hc0 (hm.trans this)
        have htake := take_succ_of_getD sub j c hjlt hm
        have hsuf2 : sub.take (j + 1) <:+ pre ++ [c] := by
          rw [htake]
          obtain ⟨t, ht⟩ := hsuf
          exact ⟨t, by rw [← ht]; simp⟩
        simp only [← hm, if_true] at hres
        by_cases hend : sub.getD (j + 1) 0 = 0
        · simp only [hend, if_true] at hres
          injection hres with hres
          subst hres
          have hfull : sub.length = j + 1 :=
            Nat.le_antisymm (getD_zero_of_nul_free sub h0 _ hend) hjlt
          have hsub : sub.take (j + 1) = sub := by
            rw [← hfull]
            exact List.take_length _
          refine ⟨?_, Nat.le_refl _, ?_, ?_⟩
          · intro hnil
            rw [hnil] at hfull
            simp at hfull
          · simp
          · rw [happ, List.take_append_of_le_length (by rw [hlen])]
            rw [← hlen, List.take_length, ← hsub]
            exact hsuf2
        · simp only [hend, if_false] at hres
          obtain ⟨h1, h2, h3, h4⟩ := ih (pre ++ [c]) (i + 1) (j + 1) p hlen hjlt hsuf2 hres
          refine ⟨h1, by omega, by simp only [List.length_cons]; omega, ?_⟩
          rw [happ]
          exact h4
      · simp only [hm, if_false] at hres
        obtain ⟨h1, h2, h3, h4⟩ := ih (pre ++ [c]) (i + 1) 0 p hlen (Nat.zero_le _)
          (by simp) hres
        refine ⟨h1, by omega, by simp only [List.length_cons]; omega, ?_⟩
        rw [happ]
        exact h4

/-- C17: `findSubstring` is a total function whose loop consumes one character of the
first string per iteration, so it terminates; whenever it returns `true`, the second
string is non-empty and occurs in the first one as a contiguous substring that ends at
the scan position `p` where it returned; it returns `false` for every empty first
string. -/
theorem findSubstring_sound (s sub : List Nat) (h0 : ∀ c ∈ sub, c ≠ 0) :
    (findSubstring s sub = true →
      sub ≠ [] ∧
      ∃ p, findSubstringLoop sub s 0 0 = some p ∧ p < s.length ∧
        sub <:+ s.take (p + 1) ∧ sub <:+: s) ∧
    findSubstring [] sub = false := by
  refine ⟨fun h => ?_, rfl⟩
  unfold findSubstring at h
  cases hres : findSubstringLoop sub s 0 0 with
  | none => rw [hres] at h; exact Bool.noConfusion h
  | some p =>
    obtain ⟨h1, _, h3, h4⟩ := findSubstringLoop_sound sub h0 s [] 0 0 p rfl (Nat.zero_le _)
      (by simp) hres
    simp only [List.nil_append, Nat.zero_add] at h3 h4
    refine ⟨h1, p, rfl, h3, h4, ?_⟩
    exact List.IsInfix.trans h4.isInfix (List.take_prefix _ _).isInfix

/-- C17, on the name `l3-0` and the configured name `l3`: the search returns `true` at
scan position 1, where the occurrence of `l3` ends. -/
theorem findSubstring_sound_witness :
    findSubstring strL3Bank strL3 = true ∧
    findSubstringLoop strL3 strL3Bank 0 0 = some 1 ∧
    strL3 <:+: strL3Bank :=
  ⟨rfl, rfl,
   (((findSubstring_sound strL3Bank strL3 (by decide)).1 rfl).2.elim
      (fun _ hp => hp.2.2.2))⟩

/-- C14: the name `ll3` contains the configured name `l3`, and `findSubstring` returns
`false` on it: after the partial match `l` fails on the second `l`, that character is
not tried again as the start of a match.  It also returns `false` for an empty
configured name, which occurs in every name. -/
theorem findSubstring_misses_occurrence :
    strL3 <:+: strLL3 ∧ findSubstring strLL3 strL3 = false ∧
    ([] : List Nat) <:+: strL3Bank ∧ findSubstring strL3Bank [] = false :=
  ⟨⟨[108], [], rfl⟩, rfl, ⟨[], strL3Bank, rfl⟩, rfl⟩


theorem nameBytes_length (env : TraceEnv) (name : List Nat) (n : Nat) :
    (nameBytes env name n).length = n := by
  simp [nameBytes]

theorem nameBytes_take (env : TraceEnv) (name : List Nat) (n : Nat)
    (hn : n ≤ name.length) : nameBytes env name n = name.take n := by
  induction n with
  | zero => rfl
  | succ k ih =>
    have hk : k < name.length := hn
    unfold nameBytes at ih ⊢
    rw [List.range_succ, List.map_append, ih (Nat.le_of_lt hk), List.take_succ,
      List.getElem?_eq_getElem hk]
    simp [nameByte, hk, List.getD_eq_getElem _ _ hk]

theorem lineData_length (env : TraceEnv) (a : Nat) : (lineData env a).length = env.lineSize := by
  simp [lineData]

theorem traceRecord_size (env : TraceEnv) (name : List Nat) (req : MemReq) (rw : Nat) :
    totalSize (traceRecord env name req rw) = 28 + env.lineSize := by
  simp only [totalSize, traceRecord, List.map_cons, List.map_nil, Written.size,
    nameBytes_length, lineData_length, List.sum_cons, List.sum_nil]
  omega

/-- C15: when a trace file is configured and the name gate passes, `WriteData` appends
nothing for a `GETS`/`GETX` request with `isMiss` false; otherwise it appends exactly one
record of `28 + lineSize` bytes: the kind character (`'r'` = 114 for `GETS`/`GETX`,
`'w'` = 119 for `PUTS`/`PUTX`), the 10 bytes at the start of the cache name's buffer (the
first 10 characters of a name that has that many), the 8-byte request cycle, the
access-type byte (`GETS` 0, `GETX` 1, `PUTS` 2, `PUTX` 3), the 8-byte address
`req.lineAddr << lineBits`, then `lineSize` bytes of line data. -/
theorem writeData_record (env : TraceEnv) (name : List Nat) (req : MemReq) (isMiss : Bool)
    (hfile : env.traceFile = true) (hgate : findSubstring name env.llcName = true) :
    ((req.type = AccessType.GETS ∨ req.type = AccessType.GETX) → isMiss = false →
      WriteData env name req isMiss = []) ∧
    (¬ ((req.type = AccessType.GETS ∨ req.type = AccessType.GETX) ∧ isMiss = false) →
      WriteData env name req isMiss =
        [Written.char
           (if req.type = AccessType.GETS ∨ req.type = AccessType.GETX then 114 else 119),
         Written.bytes (nameBytes env name 10),
         Written.u64 req.cycle,
         Written.u8 (enumAccessType req.type),
         Written.u64 (shl64 req.lineAddr env.lineBits),
         Written.bytes (lineData env (shl64 req.lineAddr env.lineBits))] ∧
      totalSize (WriteData env name req isMiss) = 28 + env.lineSize) ∧
    (nameBytes env name 10).length = 10 ∧
    (10 ≤ name.length → nameBytes env name 10 = name.take 10) ∧
    (lineData env (shl64 req.lineAddr env.lineBits)).length = env.lineSize ∧
    (enumAccessType AccessType.GETS = 0 ∧ enumAccessType AccessType.GETX = 1 ∧
      enumAccessType AccessType.PUTS = 2 ∧ enumAccessType AccessType.PUTX = 3) := by
  refine ⟨?_, ?_, nameBytes_length env name 10, nameBytes_take env name 10,
    lineData_length env _, rfl, rfl, rfl, rfl⟩
  · intro hrd hmiss
    simp [WriteData, hfile, hgate, hrd, hmiss]
  · intro hnot
    by_cases hrd : req.type = AccessType.GETS ∨ req.type = AccessType.GETX
    · have hmiss : isMiss = true := by
        cases isMiss
        · exact absurd ⟨hrd, rfl⟩ hnot
        · rfl
      have hw : WriteData env name req isMiss = traceRecord env name req 114 := by
        simp [WriteData, hfile, hgate, hrd, hmiss]
      rw [hw]
      refine ⟨?_, traceRecord_size env name req 114⟩
      simp only [hrd, if_true]
      rfl
    · have hw : WriteData env name req isMiss = traceRecord env name req 119 := by
        simp [WriteData, hfile, hgate, hrd]
      rw [hw]
      refine ⟨?_, traceRecord_size env name req 119⟩
      simp only [hrd, if_false]
      rfl

/-- C15, on the cache `l3-0` with lines of 4 bytes: a write-back request appends one
record of 32 bytes starting with `'w'`, a read that missed one starting with `'r'`, a
read that hit nothing. -/
theorem writeData_record_witness :
    WriteData traceEnv strL3Bank reqP false =
      [Written.char 119, Written.bytes [108, 51, 45, 48, 0, 7, 8, 9, 10, 11],
       Written.u64 1000, Written.u8 3, Written.u64 256, Written.bytes [1, 2, 3, 4]] ∧
    totalSize (WriteData traceEnv strL3Bank reqP false) = 28 + 4 ∧
    WriteData traceEnv strL3Bank reqX false = [] :=
  ⟨((writeData_record traceEnv strL3Bank reqP false rfl rfl).2.1 (by decide)).1,
   ((writeData_record traceEnv strL3Bank reqP false rfl rfl).2.1 (by decide)).2,
   (writeData_record traceEnv strL3Bank reqX false rfl rfl).1 (Or.inr rfl) rfl⟩


/-! ## Claims on the calls, tied to the collaborators' state

The call log is written by the orchestrator; the statements below also fix the state
that the collaborators are left in, as the composition of their own functions, so that a
call that is logged is a call that is made, with the logged arguments, in the logged
order. -/

theorem drain_cs (ch : Cache σ) (req : MemReq) (m : Machine σ) :
    (drain ch req m).2.sys.cs = m.sys.cs := by
  simp only [drain]
  split_ifs <;> rfl

theorem stitch_cs (req : MemReq) (wbAcc : TimingRecord) (m : Machine σ) :
    (stitch req wbAcc m).2.sys.cs = m.sys.cs := by
  simp only [stitch]
  split_ifs <;> rfl

theorem finish_cs (ch : Cache σ) (req : MemReq) (c : Nat) (m : Machine σ) :
    (finish ch req c m).sys.cs = ch.cc.endAccess req m.sys.cs := rfl

theorem stitch_ok_of_no_stitch_fault (ch : Cache σ) (req : MemReq) (s : Sys σ)
    (hsk : skipAccess ch req s = false)
    (h : ∀ flt, (access ch req s).result = Except.error flt → flt.inStitch = false) :
    (stitch (front ch req s).req (front ch req s).wbAcc
      (mainAccess ch (front ch req s)).2).1 = none := by
  cases hs : (stitch (front ch req s).req (front ch req s).wbAcc
      (mainAccess ch (front ch req s)).2).1 with
  | none => rfl
  | some flt =>
    have hin := stitch_fault _ _ _ flt hs
    have hres : (access ch req s).result = Except.error flt := by
      rw [access_fault ch req s flt hsk hs]
    rw [h flt hres] at hin
    exact Bool.noConfusion hin

theorem makeSpace_alloc_sys (ch : Cache σ) (req : MemReq) (rc : Nat) (m : Machine σ)
    (h : (ch.cc.shouldAllocate req m.sys.cs).1 = true) :
    (makeSpace ch req (-1) rc m).2.sys =
      { cs := ch.array.postinsert req.lineAddr req
          (ch.array.preinsert req.lineAddr req (ch.cc.shouldAllocate req m.sys.cs).2).1
          (ch.cc.processEviction req
            (ch.array.preinsert req.lineAddr req (ch.cc.shouldAllocate req m.sys.cs).2).2.1
            (ch.array.preinsert req.lineAddr req (ch.cc.shouldAllocate req m.sys.cs).2).1 rc
            { cs := (ch.array.preinsert req.lineAddr req
                (ch.cc.shouldAllocate req m.sys.cs).2).2.2,
              recorders := m.sys.recorders }).cs,
        recorders := (ch.cc.processEviction req
            (ch.array.preinsert req.lineAddr req (ch.cc.shouldAllocate req m.sys.cs).2).2.1
            (ch.array.preinsert req.lineAddr req (ch.cc.shouldAllocate req m.sys.cs).2).1 rc
            { cs := (ch.array.preinsert req.lineAddr req
                (ch.cc.shouldAllocate req m.sys.cs).2).2.2,
              recorders := m.sys.recorders }).recorders } := by
  simp [makeSpace, h, Machine.setCs, Machine.emit]

/-- C7: when `startAccess` asks to skip, the only calls made are `startAccess` and
`endAccess`, once each (no call on the array, no allocation decision, no eviction, no
main processing, nothing on the event recorder), the recorders are left as they were,
and the access returns exactly the request cycle; the collaborators are left in the
state that `endAccess` makes of the state `startAccess` left. -/
theorem skipped_access_frame (ch : Cache σ) (req : MemReq) (s : Sys σ)
    (h : skipAccess ch req s = true) :
    (access ch req s).log = [Call.startAccess req, Call.endAccess (startReq ch req s)] ∧
    (access ch req s).sys.recorders = s.recorders ∧
    (access ch req s).result = Except.ok req.cycle ∧
    skipAccess ch req s = (ch.cc.startAccess req s.cs).1 ∧
    startReq ch req s = { req with type := (ch.cc.startAccess req s.cs).2.1 } ∧
    (access ch req s).sys.cs =
      ch.cc.endAccess { req with type := (ch.cc.startAccess req s.cs).2.1 }
        (ch.cc.startAccess req s.cs).2.2 := by
  rw [access_skip ch req s h]
  refine ⟨rfl, rfl, ?_, rfl, rfl, rfl⟩
  simp [finish, startReq_cycle]

/-- C7, on the scripted scenario of a skipped access; the journal kept by the
collaborators holds `startAccess` and `endAccess` and nothing else. -/
theorem skipped_access_frame_witness :
    skipAccess (scriptedCache skipped) reqX idleSys = true ∧
    (access (scriptedCache skipped) reqX idleSys).log =
      [Call.startAccess reqX, Call.endAccess reqX] ∧
    (access (scriptedCache skipped) reqX idleSys).result = Except.ok 1000 ∧
    (access (journalCache skipped) reqX journalSys).sys.cs =
      [Call.startAccess reqX, Call.endAccess reqX] :=
  ⟨rfl, (skipped_access_frame (scriptedCache skipped) reqX idleSys rfl).1,
    (skipped_access_frame (scriptedCache skipped) reqX idleSys rfl).2.2.1,
    (skipped_access_frame (journalCache skipped) reqX journalSys rfl).2.2.2.2.2⟩

/-- C8 (amended): in every access that reaches line 121, that is every access that is
not aborted by an assertion of the stitching step (every access that returns, skipped or
not, and every access that fails the final assertion only), the first call is
`startAccess`, the last call is `endAccess`, and neither is called in between.  The
skip flag and the request kind are those answered by `startAccess` on the initial state;
the next call is made on the state `startAccess` left; the collaborators end in the state
that `endAccess` makes of the state left by the call before it (`startAccess` when
skipped, `processAccess` otherwise), and `endAccess` leaves the recorders as the
stitching step left them. -/
theorem start_end_pairing (ch : Cache σ) (req : MemReq) (s : Sys σ)
    (h : ∀ flt, (access ch req s).result = Except.error flt → flt.inStitch = false) :
    (∃ mid, (access ch req s).log =
        Call.startAccess req :: (mid ++ [Call.endAccess (startReq ch req s)]) ∧
      ∀ c ∈ mid, c.kind ≠ CallKind.startAccess ∧ c.kind ≠ CallKind.endAccess) ∧
    skipAccess ch req s = (ch.cc.startAccess req s.cs).1 ∧
    startReq ch req s = { req with type := (ch.cc.startAccess req s.cs).2.1 } ∧
    (skipAccess ch req s = true →
      (access ch req s).sys.cs =
        ch.cc.endAccess { req with type := (ch.cc.startAccess req s.cs).2.1 }
          (ch.cc.startAccess req s.cs).2.2) ∧
    (skipAccess ch req s = false →
      lookupResult ch req s =
        ch.array.lookup req.lineAddr (some (startReq ch req s))
          (updateReplacement (startReq ch req s)) (ch.cc.startAccess req s.cs).2.2 ∧
      (access ch req s).sys.cs =
        ch.cc.endAccess { req with type := (ch.cc.startAccess req s.cs).2.1 }
          (ch.cc.processAccess (startReq ch req s) (front ch req s).lineId
            (add64 req.cycle ch.accLat) (front ch req s).m.sys).2.cs ∧
      (access ch req s).sys.recorders =
        (stitch (front ch req s).req (front ch req s).wbAcc
          (mainAccess ch (front ch req s)).2).2.sys.recorders) := by
  refine ⟨?_, rfl, rfl, ?_, ?_⟩
  · by_cases hsk : skipAccess ch req s = true
    · exact ⟨[], (skip_log ch req s hsk), by simp⟩
    · have hsk' : skipAccess ch req s = false := by simpa using hsk
      obtain ⟨lM, lR1, lR2, lE, hlog, hM, h0, h2, hE⟩ := access_log_shape ch req s hsk'
      have h1 := fun c hc => drainKind_onRecorder c (h0 c hc)
      rcases hE with ⟨hl, _⟩ | ⟨_, flt, hf, hin⟩
      · refine ⟨[Call.lookup req.lineAddr (some (startReq ch req s))
            (updateReplacement (startReq ch req s))] ++ lM ++ lR1 ++
            [Call.processAccess (startReq ch req s) (front ch req s).lineId
              (add64 req.cycle ch.accLat)] ++ lR2, ?_, ?_⟩
        · rw [hlog, hl]
          simp
        · intro c hc
          simp only [List.mem_append, List.mem_singleton] at hc
          rcases hc with (((rfl | hc) | hc) | rfl) | hc
          · simp [Call.kind]
          · exact makeSpaceCalls_not_bracket ch req s lM _ hM c hc
          · exact recorder_not_bracket c (h1 c hc)
          · simp [Call.kind]
          · exact recorder_not_bracket c (h2 c hc)
      · rw [h flt hf] at hin
        exact Bool.noConfusion hin
  · intro hsk
    rw [access_skip ch req s hsk]
    rfl
  · intro hsk
    have hs1 := stitch_ok_of_no_stitch_fault ch req s hsk h
    refine ⟨rfl, ?_, ?_⟩
    · rw [access_run ch req s hsk hs1, finish_cs, stitch_cs]
      rfl
    · rw [access_run ch req s hsk hs1, finish_recorders]

/-- C8, on the scenario of a miss with eviction whose two records are merged: the access
returns, its log starts with `startAccess` and ends with `endAccess`, and so does the
journal kept by the collaborators. -/
theorem start_end_pairing_witness :
    (access (journalCache missBothRecords) reqX journalSys).result = Except.ok 1020 ∧
    (∃ mid, (access (journalCache missBothRecords) reqX journalSys).log =
        Call.startAccess reqX :: (mid ++ [Call.endAccess reqX]) ∧
      ∀ c ∈ mid, c.kind ≠ CallKind.startAccess ∧ c.kind ≠ CallKind.endAccess) ∧
    (access (journalCache missBothRecords) reqX journalSys).sys.cs =
      [Call.startAccess reqX, Call.lookup 64 (some reqX) true, Call.shouldAllocate reqX,
       Call.preinsert 64 reqX, Call.processEviction reqX 128 7 1005,
       Call.postinsert 64 reqX 7, Call.processAccess reqX 7 1005, Call.endAccess reqX] :=
  ⟨rfl,
   (start_end_pairing (journalCache missBothRecords) reqX journalSys
    (fun _ hf => Except.noConfusion
      ((rfl : (access (journalCache missBothRecords) reqX journalSys).result =
        Except.ok 1020).symm.trans hf))).1,
   ((start_end_pairing (journalCache missBothRecords) reqX journalSys
    (fun _ hf => Except.noConfusion
      ((rfl : (access (journalCache missBothRecords) reqX journalSys).result =
        Except.ok 1020).symm.trans hf))).2.2.2.2 rfl).2.1⟩

/-- C8, counterexample to "on every exit path": on a miss with eviction where the
writeback record has reference cycle 990, before the request cycle 1000, and the main
access has a record too, the assertion of line 102 fails; `startAccess` was called and
`endAccess` never is, neither in the log nor in the journal kept by the collaborators. -/
theorem start_end_pairing_abort_counterexample :
    (access (journalCache missWbEarly) reqX journalSys).result =
      Except.error Fault.wbReqCycle ∧
    callsOf CallKind.startAccess (access (journalCache missWbEarly) reqX journalSys).log =
      [Call.startAccess reqX] ∧
    callsOf CallKind.endAccess (access (journalCache missWbEarly) reqX journalSys).log =
      [] ∧
    (access (journalCache missWbEarly) reqX journalSys).sys.cs =
      [Call.startAccess reqX, Call.lookup 64 (some reqX) true, Call.shouldAllocate reqX,
       Call.preinsert 64 reqX, Call.processEviction reqX 128 7 1005,
       Call.postinsert 64 reqX 7, Call.processAccess reqX 7 1005] :=
  ⟨rfl, rfl, rfl, rfl⟩


/-- C9: in a non-skipped access whose lookup misses and for which `shouldAllocate`
answers true, the calls `preinsert`, `processEviction`, `postinsert`, `processAccess`
occur exactly once each, in this order.  `preinsert` is applied to the state
`shouldAllocate` left; `processEviction` is applied to the state `preinsert` left, with
the victim address and slot id that `preinsert` returned and the cycle
`req.cycle + accLat` (64-bit addition); `postinsert` is applied to the state
`processEviction` left and commits the request's line address at that same slot id;
`processAccess` is applied to the state `postinsert` left (and the recorders as drained),
with that slot id. -/
theorem eviction_ordering (ch : Cache σ) (req : MemReq) (s : Sys σ)
    (h : skipAccess ch req s = false) (hmiss : (lookupResult ch req s).1 = -1)
    (halloc : (allocDecision ch req s).1 = true) :
    (access ch req s).log.filter (fun c => c.kind.allocStep) =
      [Call.preinsert req.lineAddr (startReq ch req s),
       Call.processEviction (startReq ch req s) (victim ch req s).2.1 (victim ch req s).1
         (add64 req.cycle ch.accLat),
       Call.postinsert req.lineAddr (startReq ch req s) (victim ch req s).1,
       Call.processAccess (startReq ch req s) (victim ch req s).1
         (add64 req.cycle ch.accLat)] ∧
    lookupResult ch req s =
      ch.array.lookup req.lineAddr (some (startReq ch req s))
        (updateReplacement (startReq ch req s)) (ch.cc.startAccess req s.cs).2.2 ∧
    allocDecision ch req s =
      ch.cc.shouldAllocate (startReq ch req s) (lookupResult ch req s).2 ∧
    victim ch req s =
      ch.array.preinsert req.lineAddr (startReq ch req s) (allocDecision ch req s).2 ∧
    (afterMakeSpace ch req s).2.sys =
      { cs := ch.array.postinsert req.lineAddr (startReq ch req s) (victim ch req s).1
          (ch.cc.processEviction (startReq ch req s) (victim ch req s).2.1
            (victim ch req s).1 (add64 req.cycle ch.accLat)
            { cs := (victim ch req s).2.2, recorders := s.recorders }).cs,
        recorders :=
          (ch.cc.processEviction (startReq ch req s) (victim ch req s).2.1
            (victim ch req s).1 (add64 req.cycle ch.accLat)
            { cs := (victim ch req s).2.2, recorders := s.recorders }).recorders } ∧
    (front ch req s).lineId = (victim ch req s).1 ∧
    (front ch req s).m.sys.cs = (afterMakeSpace ch req s).2.sys.cs ∧
    (front ch req s).m.sys.recorders =
      (drain ch (startReq ch req s) (afterMakeSpace ch req s).2).2.sys.recorders ∧
    mainAccess ch (front ch req s) =
      ((ch.cc.processAccess (startReq ch req s) (victim ch req s).1
          (add64 req.cycle ch.accLat) (front ch req s).m.sys).1,
       { sys := (ch.cc.processAccess (startReq ch req s) (victim ch req s).1
           (add64 req.cycle ch.accLat) (front ch req s).m.sys).2,
         log := (front ch req s).m.log ++
           [Call.processAccess (startReq ch req s) (victim ch req s).1
             (add64 req.cycle ch.accLat)] }) := by
  have hsa : (ch.cc.shouldAllocate (startReq ch req s) (afterLookup ch req s).sys.cs).1 =
      true := halloc
  have hid : (front ch req s).lineId = (victim ch req s).1 := by
    show (afterMakeSpace ch req s).1 = _
    unfold afterMakeSpace
    rw [hmiss]
    exact (makeSpace_alloc ch (startReq ch req s) (add64 req.cycle ch.accLat)
      (afterLookup ch req s) hsa).1
  refine ⟨?_, rfl, rfl, rfl, ?_, hid, ?_, rfl, ?_⟩
  · obtain ⟨lM, lR1, lR2, lE, hlog, hM, h0, h2, hE⟩ := access_log_shape ch req s h
    have h1 := fun c hc => drainKind_onRecorder c (h0 c hc)
    have hrec : ∀ c : Call, c.kind.onRecorder = true → c.kind.allocStep = false := by
      intro c hc
      cases hk : c.kind <;> rw [hk] at hc <;> first | rfl | exact Bool.noConfusion hc
    have hlE : lE.filter (fun c => c.kind.allocStep) = [] := by
      rcases hE with ⟨hl, _⟩ | ⟨hl, _⟩ <;> rw [hl] <;> rfl
    rcases hM with ⟨hne, _, _⟩ | ⟨_, hf, _, _⟩ | ⟨_, _, hl, hid2⟩
    · exact absurd hmiss hne
    · rw [hf] at halloc
      exact Bool.noConfusion halloc
    · rw [hlog, hl, hid2]
      simp only [List.filter_append, filter_recorder _ lR1 hrec h1,
        filter_recorder _ lR2 hrec h2, hlE]
      rfl
  · unfold afterMakeSpace
    rw [hmiss]
    exact makeSpace_alloc_sys ch (startReq ch req s) (add64 req.cycle ch.accLat)
      (afterLookup ch req s) hsa
  · exact drain_cs ch (startReq ch req s) (afterMakeSpace ch req s).2
  · rw [← hid]
    rfl

/-- C9, on the scenario of a miss with eviction: victim slot 7, victim address `0x80`,
estimate 1005; the journal kept by the collaborators shows the four calls applied in
this order with these arguments. -/
theorem eviction_ordering_witness :
    skipAccess (journalCache missBothRecords) reqX journalSys = false ∧
    (lookupResult (journalCache missBothRecords) reqX journalSys).1 = -1 ∧
    (allocDecision (journalCache missBothRecords) reqX journalSys).1 = true ∧
    (access (journalCache missBothRecords) reqX journalSys).log.filter
        (fun c => c.kind.allocStep) =
      [Call.preinsert 64 reqX, Call.processEviction reqX 128 7 1005,
       Call.postinsert 64 reqX 7, Call.processAccess reqX 7 1005] ∧
    (afterMakeSpace (journalCache missBothRecords) reqX journalSys).2.sys.cs =
      [Call.startAccess reqX, Call.lookup 64 (some reqX) true, Call.shouldAllocate reqX,
       Call.preinsert 64 reqX, Call.processEviction reqX 128 7 1005,
       Call.postinsert 64 reqX 7] ∧
    (mainAccess (journalCache missBothRecords)
        (front (journalCache missBothRecords) reqX journalSys)).2.sys.cs =
      [Call.startAccess reqX, Call.lookup 64 (some reqX) true, Call.shouldAllocate reqX,
       Call.preinsert 64 reqX, Call.processEviction reqX 128 7 1005,
       Call.postinsert 64 reqX 7, Call.processAccess reqX 7 1005] :=
  ⟨rfl, rfl, rfl,
   (eviction_ordering (journalCache missBothRecords) reqX journalSys rfl rfl rfl).1,
   congrArg Sys.cs
     (eviction_ordering (journalCache missBothRecords) reqX journalSys rfl rfl
       rfl).2.2.2.2.1,
   congrArg (fun r => r.2.sys.cs)
     (eviction_ordering (journalCache missBothRecords) reqX journalSys rfl rfl
       rfl).2.2.2.2.2.2.2.2⟩

/-- C13: in a non-skipped access `array->lookup` is called exactly once: it is applied
to the state `startAccess` left, with the request's line address, the request as
`startAccess` left it, and `updateReplacement` true if and only if the kind of that
request is `GETS` or `GETX` (false for `PUTS` and `PUTX`); the steps that follow go on
with its answer and with the state it left. -/
theorem lookup_replacement_flag (ch : Cache σ) (req : MemReq) (s : Sys σ)
    (h : skipAccess ch req s = false) :
    callsOf CallKind.lookup (access ch req s).log =
      [Call.lookup req.lineAddr (some (startReq ch req s))
        (updateReplacement (startReq ch req s))] ∧
    (updateReplacement (startReq ch req s) = true ↔
      ((startReq ch req s).type = AccessType.GETS ∨
        (startReq ch req s).type = AccessType.GETX)) ∧
    (((startReq ch req s).type = AccessType.PUTS ∨
        (startReq ch req s).type = AccessType.PUTX) →
      updateReplacement (startReq ch req s) = false) ∧
    startReq ch req s = { req with type := (ch.cc.startAccess req s.cs).2.1 } ∧
    lookupResult ch req s =
      ch.array.lookup req.lineAddr (some { req with type := (ch.cc.startAccess req s.cs).2.1 })
        (decide ((ch.cc.startAccess req s.cs).2.1 = AccessType.GETS) ||
          decide ((ch.cc.startAccess req s.cs).2.1 = AccessType.GETX))
        (ch.cc.startAccess req s.cs).2.2 ∧
    (afterLookup ch req s).sys =
      { cs := (lookupResult ch req s).2, recorders := s.recorders } ∧
    afterMakeSpace ch req s =
      makeSpace ch (startReq ch req s) (lookupResult ch req s).1
        (add64 req.cycle ch.accLat) (afterLookup ch req s) ∧
    ((lookupResult ch req s).1 ≠ -1 →
      (front ch req s).lineId = (lookupResult ch req s).1 ∧
      (front ch req s).m.sys.cs = (lookupResult ch req s).2) ∧
    ((lookupResult ch req s).1 = -1 →
      allocDecision ch req s =
        ch.cc.shouldAllocate (startReq ch req s) (lookupResult ch req s).2) := by
  refine ⟨?_, ?_, ?_, rfl, ?_, rfl, rfl, ?_, fun _ => rfl⟩
  · obtain ⟨lM, lE, hl, hM, hE⟩ := access_log_filter ch req s
      (fun c => decide (c.kind = CallKind.lookup))
      (kind_filter_recorder CallKind.lookup rfl) h
    rw [callsOf_filter, hl]
    rcases hM with ⟨_, hm, _⟩ | ⟨_, _, hm, _⟩ | ⟨_, _, hm, _⟩ <;> rw [hm] <;>
      rcases hE with he | he <;> rw [he] <;> rfl
  · unfold updateReplacement
    cases (startReq ch req s).type <;> simp
  · unfold updateReplacement
    cases (startReq ch req s).type <;> simp
  · rfl
  · intro hhit
    have hms : afterMakeSpace ch req s = ((lookupResult ch req s).1, afterLookup ch req s) :=
      makeSpace_hit ch (startReq ch req s) _ _ _ hhit
    refine ⟨?_, ?_⟩
    · show (afterMakeSpace ch req s).1 = _
      rw [hms]
    · show (drain ch (startReq ch req s) (afterMakeSpace ch req s).2).2.sys.cs = _
      rw [drain_cs, hms]
      rfl

/-- C13, on the journalling doubles: the array itself records one lookup, with the flag
set for a read-exclusive request and cleared for a write-back request. -/
theorem lookup_replacement_flag_witness :
    callsOf CallKind.lookup (access (journalCache hitWithRecord) reqX journalSys).log =
      [Call.lookup 64 (some reqX) true] ∧
    callsOf CallKind.lookup (access (journalCache hitWithRecord) reqP journalSys).log =
      [Call.lookup 64 (some reqP) false] ∧
    (lookupResult (journalCache hitWithRecord) reqP journalSys).2 =
      [Call.startAccess reqP, Call.lookup 64 (some reqP) false] ∧
    (access (journalCache hitWithRecord) reqP journalSys).sys.cs =
      [Call.startAccess reqP, Call.lookup 64 (some reqP) false,
       Call.processAccess reqP 3 1005, Call.endAccess reqP] :=
  ⟨(lookup_replacement_flag (journalCache hitWithRecord) reqX journalSys rfl).1,
   (lookup_replacement_flag (journalCache hitWithRecord) reqP journalSys rfl).1,
   congrArg Prod.snd
     (lookup_replacement_flag (journalCache hitWithRecord) reqP journalSys rfl).2.2.2.2.1,
   rfl⟩

end ZSim
